import Mathlib

/-!
Shallow embedding of the `logrotate` Ansible module
(`plugins/modules/logrotate.py`): the reconciliation engine that renders a
logrotate stanza from a validated option set and converges the on-disk
configuration file (create / update / enable-disable rename / delete, with
optional backup).

The filesystem is modelled as a finite map from path strings to file entries
(content and permission mode) plus a set of existing directories.  Path
expansion (`os.path.expanduser` / `os.path.expandvars`) is environment
dependent and is modelled as the identity function; none of the verified
properties depend on it.  `datetime.now()` timestamps, the default file
creation mode of `open(..., "w")` and the check-mode flag are supplied
through an explicit environment record.
-/

set_option maxHeartbeats 1000000

namespace Logrotate

/-! ### Filesystem model -/

/-- One file on disk: path, content, and permission mode bits. -/
structure FileEntry where
  path : String
  content : String
  mode : Nat
deriving DecidableEq, Repr

/-- The filesystem state: the files and the set of existing directories. -/
structure FS where
  files : List FileEntry
  dirs : List String
deriving DecidableEq, Repr

def FS.lookup (fs : FS) (p : String) : Option FileEntry :=
  fs.files.find? (fun e => e.path == p)

/-- `os.path.exists` for files. -/
def FS.pathExists (fs : FS) (p : String) : Bool :=
  (fs.lookup p).isSome

/-- `open(p).read()`: the content of the file at `p`, when it exists. -/
def FS.readFile (fs : FS) (p : String) : Option String :=
  (fs.lookup p).map (fun e => e.content)

/-- The permission mode of the file at `p`, when it exists. -/
def FS.modeOf (fs : FS) (p : String) : Option Nat :=
  (fs.lookup p).map (fun e => e.mode)

/-- Remove the file at `p` (no error if absent). -/
def FS.removeFile (fs : FS) (p : String) : FS :=
  { fs with files := fs.files.filter (fun e => !(e.path == p)) }

/-- `open(p, "w").write(c)`: create or truncate the file at `p`. -/
def FS.writeFile (fs : FS) (p c : String) (m : Nat) : FS :=
  { fs with files := ⟨p, c, m⟩ :: (fs.removeFile p).files }

/-- `os.chmod`. -/
def FS.chmod (fs : FS) (p : String) (m : Nat) : FS :=
  { fs with files := fs.files.map (fun e => if e.path == p then { e with mode := m } else e) }

/-- `os.makedirs(d, exist_ok=True)`. -/
def FS.mkdirs (fs : FS) (d : String) : FS :=
  if fs.dirs.contains d then fs else { fs with dirs := d :: fs.dirs }

def FS.dirExists (fs : FS) (d : String) : Bool :=
  fs.dirs.contains d

/-- `os.remove(p)`: raises `FileNotFoundError` when the file is missing. -/
def FS.removeChecked (fs : FS) (p : String) : Except String FS :=
  if fs.pathExists p then .ok (fs.removeFile p)
  else .error ("FileNotFoundError: " ++ p)

/-- `AnsibleModule.atomic_move(src, dst)`: renames `src` onto `dst`
(the source ceases to exist, the destination receives its content and mode);
fails when the source is missing. -/
def FS.atomicMove (fs : FS) (src dst : String) : Except String FS :=
  match fs.lookup src with
  | none => .error ("atomic_move failed: source missing: " ++ src)
  | some e => .ok ((fs.removeFile src).writeFile dst e.content e.mode)

/-! ### Python string helpers (char-list based, to keep kernel evaluation simple) -/

def pyWhitespace (c : Char) : Bool :=
  c == ' ' || c == '\t' || c == '\n' || c == '\r'

/-- Python `str.strip()` on a char list. -/
def stripChars (l : List Char) : List Char :=
  ((l.dropWhile pyWhitespace).reverse.dropWhile pyWhitespace).reverse

/-- Python `str.strip()`. -/
def pyStrip (s : String) : String :=
  ⟨stripChars s.data⟩

/-- Split a char list on the newline character (Python `str.split("\n")`). -/
def splitNL : List Char → List (List Char)
  | [] => [[]]
  | c :: cs =>
    let rest := splitNL cs
    if c == '\n' then [] :: rest
    else match rest with
      | [] => [[c]]
      | r :: rs => (c :: r) :: rs

/-- Python `s.split("\n")`. -/
def pyLines (s : String) : List String :=
  (splitNL s.data).map (fun l => ⟨l⟩)

/-- Python `sub in s` (substring containment) on char lists. -/
def hasInfixChars (sub : List Char) : List Char → Bool
  | [] => sub.isPrefixOf []
  | c :: cs => sub.isPrefixOf (c :: cs) || hasInfixChars sub cs

/-- Python `sub in s` for strings. -/
def pyContains (s sub : String) : Bool :=
  hasInfixChars sub.data s.data

/-- Python `s.startswith(pre)`. -/
def pyStartsWith (s pre : String) : Bool :=
  pre.data.isPrefixOf s.data

/-- Python `s.split()` (split on whitespace runs, dropping empty pieces). -/
def pySplitWs (s : String) : List String :=
  ((s.data.splitOnP pyWhitespace).map (fun l => (⟨l⟩ : String))).filter (fun t => !(t == ""))

/-! ### Option set (the module parameters, with argument-spec defaults applied) -/

/-- A `type: raw` script parameter: either a single command string or a list
of command lines. -/
inductive RawVal where
  | str (s : String)
  | list (l : List String)
deriving DecidableEq, Repr

/-- The module parameter bag (`module.params`), after the Ansible argument
spec has applied types and defaults.  Optional parameters without a default
are `Option`-valued (`none` = Python `None`). -/
structure Params where
  name : String
  state : String
  config_dir : String
  paths : Option (List String)
  rotation_period : String
  rotate_count : Int
  compress : Bool
  compressoptions : Option String
  compression_method : String
  delaycompress : Bool
  nodelaycompress : Bool
  shred : Bool
  shredcycles : Int
  missingok : Bool
  ifempty : Bool
  notifempty : Bool
  create : Option String
  copytruncate : Bool
  copy : Bool
  renamecopy : Bool
  size : Option String
  minsize : Option String
  maxsize : Option String
  maxage : Option Int
  dateext : Bool
  dateyesterday : Bool
  dateformat : Option String
  sharedscripts : Bool
  prerotate : Option RawVal
  postrotate : Option RawVal
  firstaction : Option RawVal
  lastaction : Option RawVal
  preremove : Option RawVal
  su : Option String
  olddir : Option String
  createolddir : Bool
  noolddir : Bool
  extension : Option String
  mail : Option String
  mailfirst : Bool
  maillast : Bool
  include_dir : Option String
  tabooext : Option (List String)
  enabled : Bool
  backup : Bool
  backup_dir : Option String
  start : Int
  syslog : Bool
deriving DecidableEq, Repr

/-- Python truthiness of an optional string (`None` and `""` are falsy). -/
def truthyStr : Option String → Bool
  | none => false
  | some s => !(s == "")

/-- Python truthiness of an optional list (`None` and `[]` are falsy). -/
def truthyList : Option (List String) → Bool
  | none => false
  | some l => !l.isEmpty

/-- Python truthiness of an optional int (`None` and `0` are falsy). -/
def truthyInt : Option Int → Bool
  | none => false
  | some n => !(n == 0)

/-- Python truthiness of a raw script value. -/
def truthyRaw : Option RawVal → Bool
  | none => false
  | some (.str s) => !(s == "")
  | some (.list l) => !l.isEmpty

/-- `_expand_path`: `os.path.expanduser(os.path.expandvars(path))`.
Environment dependent; modelled as the identity. -/
def expandPath (s : String) : String := s

/-- `_get_config_path`: base path, plus the `.disabled` suffix when the
configuration is disabled. -/
def Params.configPath (p : Params) (enabled : Bool) : String :=
  if enabled then p.config_dir ++ "/" ++ p.name
  else p.config_dir ++ "/" ++ p.name ++ ".disabled"

/-- `_read_existing_config(any_state=True)`: scan the enabled variant first,
then the disabled one; return the discovered enabled state and content. -/
def readExistingAny (p : Params) (fs : FS) : Option (Bool × String) :=
  match fs.readFile (p.configPath true) with
  | some c => some (true, c)
  | none =>
    match fs.readFile (p.configPath false) with
    | some c => some (false, c)
    | none => none

/-! ### Parameter validation (`_validate_parameters`) -/

/-- One of the size suffix characters `[kMG]` matched case-insensitively. -/
def isSizeSuffix (c : Char) : Bool :=
  c == 'k' || c == 'K' || c == 'm' || c == 'M' || c == 'g' || c == 'G'

/-- Python `re.match(r'^\d+[kMG]?$', s, re.I)`: one or more digits followed by
an optional suffix letter.  As in Python, `$` also matches just before a
single trailing newline. -/
def sizeFormatOk (s : String) : Bool :=
  let cs :=
    match s.data.getLast? with
    | some '\n' => s.data.dropLast
    | _ => s.data
  match cs.getLast? with
  | none => false
  | some c =>
    if isSizeSuffix c then !cs.dropLast.isEmpty && cs.dropLast.all Char.isDigit
    else cs.all Char.isDigit

/-- The declared compression method choices. -/
def compressionMethods : List String :=
  ["gzip", "bzip2", "xz", "zstd", "lzma", "lz4"]

/-- `_validate_parameters`: returns the `fail_json` message of the first
failing check, or `none` when validation passes.  The whole body is guarded
by `state == "present"`. -/
def validate (p : Params) (fs : FS) : Option String :=
  if p.state == "present" then
    if !(match readExistingAny p fs with
         | some (_, c) => !(c == "")
         | none => false)
        && !truthyList p.paths then
      some "paths parameter is required when creating a new configuration"
    else if truthyStr p.size && truthyStr p.maxsize then
      some "size and maxsize parameters are mutually exclusive"
    else if p.copy && p.copytruncate then
      some "copy and copytruncate are mutually exclusive"
    else if p.copy && p.renamecopy then
      some "copy and renamecopy are mutually exclusive"
    else if p.ifempty && p.notifempty then
      some "ifempty and notifempty are mutually exclusive"
    else if p.delaycompress && p.nodelaycompress then
      some "delaycompress and nodelaycompress are mutually exclusive"
    else if truthyStr p.olddir && p.noolddir then
      some "olddir and noolddir are mutually exclusive"
    else if !(compressionMethods.contains p.compression_method) then
      some ("Invalid compression method: " ++ p.compression_method)
    else if truthyStr p.su && !((pySplitWs (p.su.getD "")).length == 2) then
      some "su parameter must be in format user group"
    else if p.shredcycles < 1 then
      some "shredcycles must be a positive integer"
    else if p.start < 0 then
      some "start must be a non-negative integer"
    else if truthyStr p.size && !sizeFormatOk (p.size.getD "") then
      some "size must be in format number[k|M|G]"
    else if truthyStr p.minsize && !sizeFormatOk (p.minsize.getD "") then
      some "minsize must be in format number[k|M|G]"
    else if truthyStr p.maxsize && !sizeFormatOk (p.maxsize.getD "") then
      some "maxsize must be in format number[k|M|G]"
    else
      none
  else
    none

/-! ### The renderer (`_generate_config_content`) -/

/-- The keyword substrings that disqualify a line from being recovered as a
path (together with space and tab). -/
def pathExcludedKeywords : List String :=
  ["daily", "weekly", "monthly", "yearly", "rotate", "compress"]

/-- The path-recovery heuristic applied to an existing configuration when no
`paths` parameter is supplied: keep stripped lines that are non-empty, are
not comments or brace lines, contain a path separator, and contain neither
whitespace nor any rotation keyword substring. -/
def recoverPaths (content : String) : List String :=
  ((pyLines (pyStrip content)).map pyStrip).filter fun line =>
    !(line == "") && !(pyStartsWith line "#") && !(pyStartsWith line "\x7b")
      && !(pyStartsWith line "\x7d") && line.data.contains '/'
      && !(pyContains line " ") && !(pyContains line "\t")
      && !(pathExcludedKeywords.any (fun kw => pyContains line kw))

/-- The effective path list used for rendering: the supplied `paths` when
truthy, otherwise the list recovered from the existing configuration (the
source mutates `self.params["paths"]`; the model threads the value
functionally).  Fails like the source when neither is available. -/
def effectivePaths (p : Params) (fs : FS) : Except String (List String) :=
  if truthyList p.paths then .ok (p.paths.getD [])
  else
    match readExistingAny p fs with
    | some (_, c) =>
      if !(c == "") then .ok (recoverPaths c)
      else .error "Cannot generate configuration: no paths specified and no existing configuration found"
    | none => .error "Cannot generate configuration: no paths specified and no existing configuration found"

/-- Lines emitted for the rotation paths. -/
def pathSeg (paths : List String) : List String :=
  paths.map expandPath

/-- The rotation cadence keyword, emitted only when neither size threshold
is set. -/
def cadenceSeg (p : Params) : List String :=
  if !truthyStr p.size && !truthyStr p.maxsize then ["    " ++ p.rotation_period] else []

/-- `size` / `maxsize` lines (an `if`/`elif` chain in the source). -/
def sizeSeg (p : Params) : List String :=
  if truthyStr p.size then ["    size " ++ p.size.getD ""]
  else if truthyStr p.maxsize then ["    maxsize " ++ p.maxsize.getD ""]
  else []

def minsizeSeg (p : Params) : List String :=
  if truthyStr p.minsize then ["    minsize " ++ p.minsize.getD ""] else []

def rotateSeg (p : Params) : List String :=
  ["    rotate " ++ toString p.rotate_count]

def startSeg (p : Params) : List String :=
  if !(p.start == 0) then ["    start " ++ toString p.start] else []

/-- The compression block. -/
def compressSeg (p : Params) : List String :=
  if p.compress then
    (if !(p.compression_method == "gzip") then
      ["    compresscmd /usr/bin/" ++ p.compression_method]
      ++ (if p.compression_method == "zstd" then
            ["    uncompresscmd /usr/bin/" ++ p.compression_method ++ " -d"]
          else if p.compression_method == "lz4" then
            ["    uncompresscmd /usr/bin/" ++ p.compression_method ++ " -d"]
          else
            ["    uncompresscmd /usr/bin/" ++ p.compression_method ++ "un" ++ p.compression_method])
      ++ ["    compressext ." ++ p.compression_method]
    else [])
    ++ ["    compress"]
    ++ (if truthyStr p.compressoptions then
          ["    compressoptions " ++ p.compressoptions.getD ""] else [])
  else ["    nocompress"]

def delaySeg (p : Params) : List String :=
  if p.delaycompress then ["    delaycompress"]
  else if p.nodelaycompress then ["    nodelaycompress"]
  else []

def shredSeg (p : Params) : List String :=
  if p.shred then
    ["    shred"] ++ (if p.shredcycles > 1 then ["    shredcycles " ++ toString p.shredcycles] else [])
  else []

def missingokSeg (p : Params) : List String :=
  if !p.missingok then ["    nomissingok"] else ["    missingok"]

def emptySeg (p : Params) : List String :=
  if p.ifempty then ["    ifempty"]
  else if p.notifempty then ["    notifempty"]
  else []

def createSeg (p : Params) : List String :=
  if truthyStr p.create then ["    create " ++ p.create.getD ""] else []

def copySeg (p : Params) : List String :=
  if p.copy then ["    copy"]
  else if p.renamecopy then ["    renamecopy"]
  else if p.copytruncate then ["    copytruncate"]
  else []

def maxageSeg (p : Params) : List String :=
  if truthyInt p.maxage then ["    maxage " ++ toString (p.maxage.getD 0)] else []

def dateextSeg (p : Params) : List String :=
  if p.dateext then
    ["    dateext"]
    ++ (if p.dateyesterday then ["    dateyesterday"] else [])
    ++ (if truthyStr p.dateformat then ["    dateformat " ++ p.dateformat.getD ""] else [])
  else []

def sharedSeg (p : Params) : List String :=
  if p.sharedscripts then ["    sharedscripts"] else []

def suSeg (p : Params) : List String :=
  if truthyStr p.su then ["    su " ++ p.su.getD ""] else []

def olddirSeg (p : Params) : List String :=
  if p.noolddir then ["    noolddir"]
  else if truthyStr p.olddir then
    ["    olddir " ++ expandPath (p.olddir.getD "")]
    ++ (if p.createolddir then ["    createolddir"] else [])
  else []

def extensionSeg (p : Params) : List String :=
  if truthyStr p.extension then ["    extension " ++ p.extension.getD ""] else []

def mailSeg (p : Params) : List String :=
  if truthyStr p.mail then
    ["    mail " ++ p.mail.getD ""]
    ++ (if p.mailfirst then ["    mailfirst"]
        else if p.maillast then ["    maillast"]
        else [])
  else []

def includeSeg (p : Params) : List String :=
  if truthyStr p.include_dir then ["    include " ++ expandPath (p.include_dir.getD "")] else []

def tabooSeg (p : Params) : List String :=
  if truthyList p.tabooext then
    if !(pyStrip (" ".intercalate (p.tabooext.getD [])) == "") then
      ["    tabooext " ++ " ".intercalate (p.tabooext.getD [])]
    else []
  else []

def syslogSeg (p : Params) : List String :=
  if p.syslog then ["    syslog"] else []

/-- One script hook block: keyword line, indented command lines, `endscript`
and a blank line.  A string value is stripped and split on newlines; a list
value emits one line per element. -/
def scriptBlock (scriptName : String) (v : RawVal) : List String :=
  ("    " ++ scriptName)
    :: (match v with
        | .list l => l.map (fun c => "        " ++ c)
        | .str s => (pyLines (pyStrip s)).map (fun c => "        " ++ c))
    ++ ["    endscript", ""]

/-- The five script hooks in source order. -/
def scriptsSeg (p : Params) : List String :=
  (if truthyRaw p.prerotate then scriptBlock "prerotate" ((p.prerotate).getD (.str "")) else [])
  ++ (if truthyRaw p.postrotate then scriptBlock "postrotate" ((p.postrotate).getD (.str "")) else [])
  ++ (if truthyRaw p.firstaction then scriptBlock "firstaction" ((p.firstaction).getD (.str "")) else [])
  ++ (if truthyRaw p.lastaction then scriptBlock "lastaction" ((p.lastaction).getD (.str "")) else [])
  ++ (if truthyRaw p.preremove then scriptBlock "preremove" ((p.preremove).getD (.str "")) else [])

/-- All lines of the rendered stanza, in the fixed source order. -/
def renderLines (p : Params) (paths : List String) : List String :=
  pathSeg paths ++ ["\x7b", ""]
  ++ cadenceSeg p ++ sizeSeg p ++ minsizeSeg p ++ rotateSeg p ++ startSeg p
  ++ compressSeg p ++ delaySeg p ++ shredSeg p ++ missingokSeg p ++ emptySeg p
  ++ createSeg p ++ copySeg p ++ maxageSeg p ++ dateextSeg p ++ sharedSeg p
  ++ suSeg p ++ olddirSeg p ++ extensionSeg p ++ mailSeg p ++ includeSeg p
  ++ tabooSeg p ++ syslogSeg p ++ scriptsSeg p ++ ["\x7d"]

/-- `"\n".join(lines)`. -/
def renderConfig (p : Params) (paths : List String) : String :=
  "\n".intercalate (renderLines p paths)

/-- `_generate_config_content`: resolve the effective paths (possibly from
the existing file) and render. -/
def generateContent (p : Params) (fs : FS) : Except String String :=
  (effectivePaths p fs).map (fun ps => renderConfig p ps)

/-! ### The reconciler (`LogrotateConfig.apply`) -/

/-- External inputs of one invocation: the check-mode flag, the
`datetime.now().strftime("%Y%m%d_%H%M%S")` timestamp (whole-second
resolution), and the default permission mode that `open(..., "w")` gives a
newly created file (umask dependent). -/
structure Env where
  check_mode : Bool
  timestamp : String
  defaultMode : Nat
deriving DecidableEq, Repr

/-- The result record built by the module (`self.result`). -/
structure ModResult where
  changed : Bool
  config_file : String
  config_content : String
  enabled_state : Bool
  backup_file : Option String
deriving DecidableEq, Repr

/-- `self.result` as initialised in `__init__`. -/
def initialResult : ModResult :=
  { changed := false, config_file := "", config_content := "",
    enabled_state := true, backup_file := none }

/-- The outcome of an invocation: a normal exit with the final filesystem and
result, or a fatal abort (`fail_json` or an uncaught exception) with the
filesystem as left at that point. -/
inductive Outcome where
  | ok (fs : FS) (res : ModResult)
  | failed (fs : FS) (msg : String)
deriving DecidableEq, Repr

def Outcome.isOK : Outcome → Bool
  | .ok _ _ => true
  | .failed _ _ => false

/-- The filesystem component of an outcome. -/
def Outcome.fsOf : Outcome → FS
  | .ok fs _ => fs
  | .failed fs _ => fs

/-- The result component of a normal outcome (dummy for a failed one). -/
def Outcome.resOf : Outcome → ModResult
  | .ok _ r => r
  | .failed _ _ => initialResult

/-- `self.params.get("backup_dir") or os.path.join(self.config_dir, ".backup")`. -/
def backupDirOf (p : Params) : String :=
  match p.backup_dir with
  | some d => if !(d == "") then d else p.config_dir ++ "/.backup"
  | none => p.config_dir ++ "/.backup"

/-- `<backup_dir>/<name>.backup.<timestamp>`. -/
def backupFileOf (env : Env) (p : Params) : String :=
  backupDirOf p ++ "/" ++ p.name ++ ".backup." ++ env.timestamp

/-- `_backup_config(config_path)`: when the file exists and backup is
requested, create the backup directory and `atomic_move` the file to
`<backup_dir>/<name>.backup.<timestamp>` (the original ceases to exist),
recording the backup path in the result.  Otherwise a no-op. -/
def backupConfig (env : Env) (p : Params) (cfgPath : String) (fs : FS) (res : ModResult) :
    FS × ModResult :=
  match fs.lookup cfgPath with
  | none => (fs, res)
  | some e =>
    if p.backup then
      (((fs.mkdirs (backupDirOf p)).removeFile cfgPath).writeFile
          (backupFileOf env p) e.content e.mode,
        { res with backup_file := some (backupFileOf env p) })
    else (fs, res)

/-- One iteration of the `state == "absent"` loop body for an existing
variant: outside check mode, back up (which may move the file away) and then
`os.remove` it; record `changed` and `config_file`. -/
def absentStep (env : Env) (p : Params) (cfgPath : String) (fs : FS) (res : ModResult) :
    Outcome :=
  if env.check_mode then
    .ok fs { res with changed := true, config_file := cfgPath }
  else
    match (backupConfig env p cfgPath fs res).1.removeChecked cfgPath with
    | .error m => .failed (backupConfig env p cfgPath fs res).1 m
    | .ok fs2 =>
      .ok fs2 { (backupConfig env p cfgPath fs res).2 with
                changed := true, config_file := cfgPath }

/-- The `state == "absent"` branch: loop over the enabled and the disabled
variant, `break` after the first one found. -/
def applyAbsent (env : Env) (p : Params) (fs : FS) (res : ModResult) : Outcome :=
  if fs.pathExists (p.configPath true) then absentStep env p (p.configPath true) fs res
  else if fs.pathExists (p.configPath false) then absentStep env p (p.configPath false) fs res
  else .ok fs res

/-- The toggle-only branch body (reached when the enable flag is the only
requested change and the rename target is free): back up the old path if
requested, `atomic_move` it to the new path, and read the moved file back as
the reported content (falling back to the previously read content when the
read fails, as in check mode). -/
def toggleStep (env : Env) (p : Params) (oldPath newPath existingContent : String)
    (fs : FS) (res : ModResult) : Outcome :=
  let res1 := { res with changed := true }
  if env.check_mode then
    .ok fs { res1 with config_file := newPath, enabled_state := p.enabled,
                       config_content := (fs.readFile newPath).getD existingContent }
  else
    match (backupConfig env p oldPath fs res1).1.atomicMove oldPath newPath with
    | .error m => .failed (backupConfig env p oldPath fs res1).1 m
    | .ok fs2 =>
      .ok fs2 { (backupConfig env p oldPath fs res1).2 with
                config_file := newPath, enabled_state := p.enabled,
                config_content := (fs2.readFile newPath).getD existingContent }

/-- One iteration of the pre-write removal loop over the two variants:
back up (which may move the file away) and `os.remove` each existing one. -/
def removeOne (env : Env) (p : Params) (cfgPath : String) (fs : FS) (res : ModResult) :
    Except (FS × String) (FS × ModResult) :=
  if fs.pathExists cfgPath then
    match (backupConfig env p cfgPath fs res).1.removeChecked cfgPath with
    | .error m => .error ((backupConfig env p cfgPath fs res).1, m)
    | .ok fs2 => .ok (fs2, (backupConfig env p cfgPath fs res).2)
  else .ok (fs, res)

/-- The removal loop over `["", ".disabled"]`. -/
def removeLoop (env : Env) (p : Params) (fs : FS) (res : ModResult) :
    Except (FS × String) (FS × ModResult) :=
  match removeOne env p (p.configPath true) fs res with
  | .error e => .error e
  | .ok (fs1, res1) => removeOne env p (p.configPath false) fs1 res1

/-- The content write path: render, decide `needs_update`, and outside check
mode remove both existing variants, write the new content at the path
matching the desired enabled state, and `chmod` it to `0o644`.  (The
advisory `logrotate -d` dry run only emits a warning and does not touch the
filesystem or the result record.) -/
def renderStep (env : Env) (p : Params) (existing : Option (Bool × String))
    (currentEnabled : Bool) (fs : FS) (res : ModResult) : Outcome :=
  match generateContent p fs with
  | .error m => .failed fs m
  | .ok newContent =>
    let res1 := { res with config_content := newContent,
                           config_file := p.configPath p.enabled }
    let needsUpdate :=
      match existing with
      | none => true
      | some (_, c) => !(c == newContent) || !(p.enabled == currentEnabled)
    if needsUpdate then
      let res2 := { res1 with changed := true }
      if env.check_mode then
        .ok fs { res2 with enabled_state := p.enabled }
      else
        match removeLoop env p fs res2 with
        | .error (fs1, m) => .failed fs1 m
        | .ok (fs1, res3) =>
          let target := p.configPath p.enabled
          let fs2 := (fs1.writeFile target newContent env.defaultMode).chmod target 0o644
          .ok fs2 { res3 with enabled_state := p.enabled }
    else
      .ok fs { res1 with enabled_state := p.enabled }

/-- The `state == "present"` branch: discover the existing entry, take the
toggle-only path when the enable flag is the only requested change and the
rename target is free, otherwise fall through to the content write path. -/
def applyPresent (env : Env) (p : Params) (fs : FS) (res : ModResult) : Outcome :=
  let existing := readExistingAny p fs
  let res1 :=
    match existing with
    | some (e, _) => { res with enabled_state := e }
    | none => res
  let currentEnabled := res1.enabled_state
  let onlyChangingEnabled :=
    existing.isSome && !truthyList p.paths && !(p.enabled == currentEnabled)
  if onlyChangingEnabled
      && fs.pathExists (p.configPath (!p.enabled))
      && !(fs.pathExists (p.configPath p.enabled)) then
    toggleStep env p (p.configPath (!p.enabled)) (p.configPath p.enabled)
      ((existing.map (fun pr => pr.2)).getD "") fs res1
  else
    renderStep env p existing currentEnabled fs res1

/-- One whole invocation: `__init__` (create the configuration directory if
missing — this happens even in check mode), `_validate_parameters`, then the
state branch of `apply`. -/
def applyModule (env : Env) (p : Params) (fs0 : FS) : Outcome :=
  let fs := fs0.mkdirs p.config_dir
  match validate p fs with
  | some msg => .failed fs msg
  | none =>
    if p.state == "absent" then applyAbsent env p fs initialResult
    else applyPresent env p fs initialResult

/-! ### Basic lemmas about the filesystem model -/

theorem FS.mkdirs_files (fs : FS) (d : String) : (fs.mkdirs d).files = fs.files := by
  unfold FS.mkdirs; split <;> rfl

theorem FS.lookup_congr {fs1 fs2 : FS} (q : String) (h : fs1.files = fs2.files) :
    fs1.lookup q = fs2.lookup q := by
  unfold FS.lookup; rw [h]

theorem FS.lookup_mkdirs (fs : FS) (d q : String) :
    (fs.mkdirs d).lookup q = fs.lookup q :=
  FS.lookup_congr q (FS.mkdirs_files fs d)

theorem findPath_filter_self (l : List FileEntry) (p : String) :
    (l.filter (fun e => !(e.path == p))).find? (fun e => e.path == p) = none := by
  rw [List.find?_eq_none]
  intro x hx
  rcases List.mem_filter.mp hx with ⟨_, hkeep⟩
  simpa using hkeep

theorem findPath_filter_ne (l : List FileEntry) (p q : String) (h : q ≠ p) :
    (l.filter (fun e => !(e.path == p))).find? (fun e => e.path == q)
      = l.find? (fun e => e.path == q) := by
  induction l with
  | nil => rfl
  | cons e es ih =>
    by_cases hp : e.path = p
    · have hq : (e.path == q) = false := by
        simp [hp]; exact fun hc => h hc.symm
      have hpq : (p == q) = false := by simp; exact fun hc => h hc.symm
      simp [List.filter, hp, List.find?, hq, hpq, ih]
    · simp only [List.filter, List.find?]
      have : (!(e.path == p)) = true := by simp [hp]
      rw [this]
      by_cases hq : e.path = q
      · simp [List.find?, hq]
      · simp only [List.find?]
        have : (e.path == q) = false := by simp [hq]
        rw [this, ih]

theorem FS.lookup_removeFile_self (fs : FS) (p : String) :
    (fs.removeFile p).lookup p = none := by
  unfold FS.lookup FS.removeFile
  exact findPath_filter_self fs.files p

theorem FS.lookup_removeFile_ne (fs : FS) {p q : String} (h : q ≠ p) :
    (fs.removeFile p).lookup q = fs.lookup q := by
  unfold FS.lookup FS.removeFile
  exact findPath_filter_ne fs.files p q h

theorem FS.lookup_writeFile_self (fs : FS) (p c : String) (m : Nat) :
    (fs.writeFile p c m).lookup p = some ⟨p, c, m⟩ := by
  unfold FS.lookup FS.writeFile
  simp [List.find?]

theorem FS.lookup_writeFile_ne (fs : FS) {p q : String} (c : String) (m : Nat) (h : q ≠ p) :
    (fs.writeFile p c m).lookup q = fs.lookup q := by
  unfold FS.lookup FS.writeFile
  simp only [List.find?]
  have : (p == q) = false := by simp; exact fun hc => h hc.symm
  rw [this]
  exact findPath_filter_ne fs.files p q h

theorem FS.lookup_chmod_self_after_write (fs : FS) (p c : String) (m0 m : Nat) :
    (((fs.writeFile p c m0)).chmod p m).lookup p = some ⟨p, c, m⟩ := by
  unfold FS.chmod FS.lookup FS.writeFile
  simp [List.find?]

theorem findPath_map_chmod (l : List FileEntry) (p q : String) (m : Nat) (h : q ≠ p) :
    (l.map (fun e => if e.path == p then { e with mode := m } else e)).find?
        (fun e => e.path == q)
      = l.find? (fun e => e.path == q) := by
  induction l with
  | nil => rfl
  | cons e es ih =>
    by_cases hq : e.path = q
    · have hp : ¬ (e.path = p) := by rw [hq]; exact h
      have hfe : (if e.path == p then { e with mode := m } else e) = e := by simp [hp]
      simp only [List.map]
      rw [hfe, List.find?_cons_of_pos _ (by simp [hq]), List.find?_cons_of_pos _ (by simp [hq])]
    · have hfep : (if e.path == p then { e with mode := m } else e).path = e.path := by
        split <;> rfl
      simp only [List.map]
      rw [List.find?_cons_of_neg _ (by simp only [beq_iff_eq]; split <;> simpa using hq),
        List.find?_cons_of_neg _ (by simp [hq])]
      exact ih

theorem FS.lookup_chmod_ne (fs : FS) {p q : String} (m : Nat) (h : q ≠ p) :
    (fs.chmod p m).lookup q = fs.lookup q := by
  unfold FS.lookup FS.chmod
  exact findPath_map_chmod fs.files p q m h

theorem FS.pathExists_iff_lookup (fs : FS) (p : String) :
    fs.pathExists p = true ↔ ∃ e, fs.lookup p = some e := by
  unfold FS.pathExists
  cases h : fs.lookup p <;> simp [Option.isSome]

theorem FS.pathExists_false_iff (fs : FS) (p : String) :
    fs.pathExists p = false ↔ fs.lookup p = none := by
  unfold FS.pathExists
  cases h : fs.lookup p <;> simp [Option.isSome]

/-! ### Lemmas about configuration paths and strings -/

theorem append_ne_of_length_lt {a b : String} (h : a.length < b.length) : a ≠ b := by
  intro he; rw [he] at h; exact lt_irrefl _ h

/-- The enabled and the disabled variant live at distinct paths. -/
theorem configPath_ne (p : Params) : p.configPath true ≠ p.configPath false := by
  have h1 : p.configPath true = p.config_dir ++ "/" ++ p.name := rfl
  have h2 : p.configPath false = p.config_dir ++ "/" ++ p.name ++ ".disabled" := rfl
  rw [h1, h2]
  apply append_ne_of_length_lt
  simp only [String.length_append]
  have h9 : (".disabled" : String).length = 9 := rfl
  omega

theorem configPath_ne' (p : Params) : p.configPath false ≠ p.configPath true :=
  fun h => configPath_ne p h.symm

theorem isPrefixOf_append_self (l t : List Char) : l.isPrefixOf (l ++ t) = true := by
  induction l with
  | nil => simp
  | cons c cs ih => simp [List.isPrefixOf, ih]

/-- If `a` is not a character-wise prefix of `b`, then no extension of `a`
equals `b`. -/
theorem append_ne_of_not_prefix (a v b : String) (h : a.data.isPrefixOf b.data = false) :
    a ++ v ≠ b := by
  intro he
  have : a.data.isPrefixOf b.data = true := by
    rw [← he, String.data_append]
    exact isPrefixOf_append_self a.data v.data
  rw [h] at this
  exact Bool.false_ne_true this

/-! ### Lemmas about the reconciler's building blocks -/

/-- Discovery only looks at the files, not the directories. -/
theorem readExistingAny_congr {fs1 fs2 : FS} (p : Params) (h : fs1.files = fs2.files) :
    readExistingAny p fs1 = readExistingAny p fs2 := by
  unfold readExistingAny FS.readFile
  rw [FS.lookup_congr _ h, FS.lookup_congr _ h]

theorem validate_congr {fs1 fs2 : FS} (p : Params) (h : fs1.files = fs2.files) :
    validate p fs1 = validate p fs2 := by
  unfold validate
  rw [readExistingAny_congr p h]

/-- When `paths` is supplied, validation does not depend on the filesystem. -/
theorem validate_of_truthyPaths {p : Params} (hp : truthyList p.paths = true)
    (fs1 fs2 : FS) : validate p fs1 = validate p fs2 := by
  unfold validate
  rw [hp]
  simp only [Bool.not_true, Bool.and_false]

theorem generateContent_of_truthyPaths {p : Params} (hp : truthyList p.paths = true)
    (fs : FS) : generateContent p fs = .ok (renderConfig p (p.paths.getD [])) := by
  unfold generateContent effectivePaths
  rw [hp]
  rfl

/-- With `backup=false`, `_backup_config` is a no-op. -/
theorem backupConfig_nobackup (env : Env) {p : Params} (hb : p.backup = false)
    (cfgPath : String) (fs : FS) (res : ModResult) :
    backupConfig env p cfgPath fs res = (fs, res) := by
  unfold backupConfig
  cases fs.lookup cfgPath <;> simp [hb]

/-- `readExistingAny` reports the content actually stored at the variant it
discovered. -/
theorem readExistingAny_readFile {p : Params} {fs : FS} {b : Bool} {c : String}
    (h : readExistingAny p fs = some (b, c)) :
    fs.readFile (p.configPath b) = some c := by
  unfold readExistingAny at h
  cases h1 : fs.readFile (p.configPath true) with
  | some c1 => rw [h1] at h; injection h with h; injection h with hb hc; subst hb; subst hc; exact h1
  | none =>
    rw [h1] at h
    cases h2 : fs.readFile (p.configPath false) with
    | some c2 => rw [h2] at h; injection h with h; injection h with hb hc; subst hb; subst hc; exact h2
    | none => rw [h2] at h; exact absurd h (by simp)

theorem FS.pathExists_congr {fs1 fs2 : FS} (q : String) (h : fs1.files = fs2.files) :
    fs1.pathExists q = fs2.pathExists q := by
  unfold FS.pathExists; rw [FS.lookup_congr q h]

theorem FS.pathExists_mkdirs (fs : FS) (d q : String) :
    (fs.mkdirs d).pathExists q = fs.pathExists q :=
  FS.pathExists_congr q (FS.mkdirs_files fs d)

/-- `_backup_config` is a no-op when the file does not exist. -/
theorem backupConfig_nobackup_missing {env : Env} {p : Params} {cfgPath : String}
    {fs : FS} (res : ModResult) (h : fs.lookup cfgPath = none) :
    backupConfig env p cfgPath fs res = (fs, res) := by
  unfold backupConfig
  rw [h]

/-- Characterisation of `_backup_config` when the file exists and backup is
requested. -/
theorem backupConfig_some_backup {env : Env} {p : Params} {cfgPath : String}
    {fs : FS} {e : FileEntry} (res : ModResult)
    (he : fs.lookup cfgPath = some e) (hb : p.backup = true) :
    backupConfig env p cfgPath fs res
      = (((fs.mkdirs (backupDirOf p)).removeFile cfgPath).writeFile
          (backupFileOf env p) e.content e.mode,
         { res with backup_file := some (backupFileOf env p) }) := by
  unfold backupConfig
  rw [he]
  simp only [hb, if_true]

/-- When the removal-loop body returns normally, the targeted variant is gone,
every other path is untouched, and the result can only have gained a backup
path. -/
theorem removeOne_ok {env : Env} {p : Params} {path : String} {fs fs1 : FS}
    {res res1 : ModResult}
    (hok : removeOne env p path fs res = .ok (fs1, res1)) :
    fs1.lookup path = none ∧ (∀ q, q ≠ path → fs1.lookup q = fs.lookup q) ∧
      ∃ b, res1 = { res with backup_file := b } := by
  unfold removeOne at hok
  by_cases hex : fs.pathExists path = true
  · rw [if_pos hex] at hok
    rcases (FS.pathExists_iff_lookup fs path).mp hex with ⟨e, he⟩
    by_cases hb : p.backup = true
    · rw [backupConfig_some_backup res he hb] at hok
      by_cases hbf : backupFileOf env p = path
      · have hpe : (((fs.mkdirs (backupDirOf p)).removeFile path).writeFile
            (backupFileOf env p) e.content e.mode).pathExists path = true := by
          rw [FS.pathExists_iff_lookup, hbf]
          exact ⟨_, FS.lookup_writeFile_self _ _ _ _⟩
        simp only [FS.removeChecked, hpe, if_true] at hok
        injection hok with hok
        injection hok with hfs hres
        refine ⟨?_, ?_, ⟨some (backupFileOf env p), hres.symm⟩⟩
        · rw [← hfs]; exact FS.lookup_removeFile_self _ _
        · intro q hq
          rw [← hfs, FS.lookup_removeFile_ne _ hq, hbf,
            FS.lookup_writeFile_ne _ _ _ hq, FS.lookup_removeFile_ne _ hq,
            FS.lookup_mkdirs]
      · have hpe : (((fs.mkdirs (backupDirOf p)).removeFile path).writeFile
            (backupFileOf env p) e.content e.mode).pathExists path = false := by
          rw [FS.pathExists_false_iff,
            FS.lookup_writeFile_ne _ _ _ (fun hc => hbf hc.symm),
            FS.lookup_removeFile_self]
        simp only [FS.removeChecked, hpe, Bool.false_eq_true, if_false] at hok
        exact absurd hok (by simp)
    · have hb' : p.backup = false := by
        cases hpb : p.backup
        · rfl
        · exact absurd hpb hb
      rw [backupConfig_nobackup env hb'] at hok
      simp only [FS.removeChecked, hex, if_true] at hok
      injection hok with hok
      injection hok with hfs hres
      refine ⟨?_, ?_, ⟨res.backup_file, by rw [← hres]⟩⟩
      · rw [← hfs]; exact FS.lookup_removeFile_self _ _
      · intro q hq; rw [← hfs, FS.lookup_removeFile_ne _ hq]
  · rw [if_neg hex] at hok
    injection hok with hok
    injection hok with hfs hres
    rw [Bool.not_eq_true] at hex
    refine ⟨?_, ?_, ⟨res.backup_file, by rw [← hres]⟩⟩
    · rw [← hfs]; exact (FS.pathExists_false_iff fs path).mp hex
    · intro q _; rw [← hfs]

/-- When the whole pre-write removal loop returns normally, both variants are
gone and every other path is untouched. -/
theorem removeLoop_ok {env : Env} {p : Params} {fs fs1 : FS} {res res1 : ModResult}
    (hok : removeLoop env p fs res = .ok (fs1, res1)) :
    fs1.lookup (p.configPath true) = none ∧ fs1.lookup (p.configPath false) = none ∧
      (∀ q, q ≠ p.configPath true → q ≠ p.configPath false → fs1.lookup q = fs.lookup q) ∧
      ∃ b, res1 = { res with backup_file := b } := by
  unfold removeLoop at hok
  cases h1 : removeOne env p (p.configPath true) fs res with
  | error e => rw [h1] at hok; exact absurd hok (by simp)
  | ok pr =>
    obtain ⟨fsA, resA⟩ := pr
    rw [h1] at hok
    obtain ⟨hA1, hA2, bA, hAres⟩ := removeOne_ok h1
    obtain ⟨hB1, hB2, bB, hBres⟩ := removeOne_ok hok
    refine ⟨?_, hB1, ?_, ?_⟩
    · rw [hB2 _ (configPath_ne p), hA1]
    · intro q hq1 hq2
      rw [hB2 _ hq2, hA2 _ hq1]
    · refine ⟨bB, ?_⟩
      rw [hBres, hAres]

/-- With `backup=false` the removal loop always succeeds and leaves the
result record unchanged. -/
theorem removeLoop_nobackup {env : Env} {p : Params} (hb : p.backup = false)
    (fs : FS) (res : ModResult) :
    ∃ fs1, removeLoop env p fs res = .ok (fs1, res) := by
  unfold removeLoop removeOne
  by_cases h1 : fs.pathExists (p.configPath true) = true
  · rw [if_pos h1, backupConfig_nobackup env hb]
    simp only [FS.removeChecked, h1, if_true]
    by_cases h2 : (fs.removeFile (p.configPath true)).pathExists (p.configPath false) = true
    · rw [if_pos h2, backupConfig_nobackup env hb]
      simp only [FS.removeChecked, h2, if_true]
      exact ⟨_, rfl⟩
    · rw [if_neg h2]
      exact ⟨_, rfl⟩
  · rw [if_neg h1]
    simp only []
    by_cases h2 : fs.pathExists (p.configPath false) = true
    · rw [if_pos h2, backupConfig_nobackup env hb]
      simp only [FS.removeChecked, h2, if_true]
      exact ⟨_, rfl⟩
    · rw [if_neg h2]
      exact ⟨_, rfl⟩

/-- Validation is skipped entirely unless `state == "present"`. -/
theorem validate_not_present {p : Params} (h : (p.state == "present") = false)
    (fs : FS) : validate p fs = none := by
  unfold validate
  rw [h]
  simp

/-- When neither variant exists, the absent branch is a no-op. -/
theorem applyAbsent_noop {env : Env} {p : Params} {fs : FS} (res : ModResult)
    (h1 : fs.pathExists (p.configPath true) = false)
    (h2 : fs.pathExists (p.configPath false) = false) :
    applyAbsent env p fs res = .ok fs res := by
  unfold applyAbsent
  rw [h1, h2]
  simp

/-- Outside check mode, a successful absent-branch step removes the targeted
variant, touches no other path, and reports `changed=true`. -/
theorem absentStep_ok {env : Env} {p : Params} {path : String} {fs fs1 : FS}
    {res res1 : ModResult}
    (hc : env.check_mode = false)
    (hok : absentStep env p path fs res = .ok fs1 res1) :
    fs1.lookup path = none ∧ (∀ q, q ≠ path → fs1.lookup q = fs.lookup q) ∧
      res1.changed = true := by
  unfold absentStep at hok
  simp only [hc, Bool.false_eq_true, if_false] at hok
  by_cases hex : fs.pathExists path = true
  · rcases (FS.pathExists_iff_lookup fs path).mp hex with ⟨e, he⟩
    by_cases hb : p.backup = true
    · rw [backupConfig_some_backup res he hb] at hok
      by_cases hbf : backupFileOf env p = path
      · have hpe : (((fs.mkdirs (backupDirOf p)).removeFile path).writeFile
            (backupFileOf env p) e.content e.mode).pathExists path = true := by
          rw [FS.pathExists_iff_lookup, hbf]
          exact ⟨_, FS.lookup_writeFile_self _ _ _ _⟩
        simp only [FS.removeChecked, hpe, if_true] at hok
        injection hok with hfs hres
        refine ⟨?_, ?_, by rw [← hres]⟩
        · rw [← hfs]; exact FS.lookup_removeFile_self _ _
        · intro q hq
          rw [← hfs, FS.lookup_removeFile_ne _ hq, hbf,
            FS.lookup_writeFile_ne _ _ _ hq, FS.lookup_removeFile_ne _ hq,
            FS.lookup_mkdirs]
      · have hpe : (((fs.mkdirs (backupDirOf p)).removeFile path).writeFile
            (backupFileOf env p) e.content e.mode).pathExists path = false := by
          rw [FS.pathExists_false_iff,
            FS.lookup_writeFile_ne _ _ _ (fun hc2 => hbf hc2.symm),
            FS.lookup_removeFile_self]
        simp only [FS.removeChecked, hpe, Bool.false_eq_true, if_false] at hok
        exact absurd hok (by simp)
    · have hb' : p.backup = false := by
        cases hpb : p.backup
        · rfl
        · exact absurd hpb hb
      rw [backupConfig_nobackup env hb'] at hok
      simp only [FS.removeChecked, hex, if_true] at hok
      injection hok with hfs hres
      refine ⟨?_, ?_, by rw [← hres]⟩
      · rw [← hfs]; exact FS.lookup_removeFile_self _ _
      · intro q hq; rw [← hfs, FS.lookup_removeFile_ne _ hq]
  · have hex' : fs.pathExists path = false := by
      cases hpb : fs.pathExists path
      · rfl
      · exact absurd hpb hex
    rw [backupConfig_nobackup_missing res ((FS.pathExists_false_iff fs path).mp hex')] at hok
    simp only [FS.removeChecked, hex', Bool.false_eq_true, if_false] at hok
    exact absurd hok (by simp)

/-- The toggle-only and content-write branches are never entered when the
desired state has already been reached; re-running the module on its own
output reports `changed=false`. -/
theorem applyPresent_noop (env : Env) {p : Params} {fs : FS}
    (hp : truthyList p.paths = true)
    (hex : readExistingAny p fs = some (p.enabled, renderConfig p (p.paths.getD []))) :
    applyPresent env p fs initialResult
      = .ok fs { initialResult with
                 enabled_state := p.enabled,
                 config_file := p.configPath p.enabled,
                 config_content := renderConfig p (p.paths.getD []) } := by
  unfold applyPresent
  rw [hex]
  simp only [hp, Bool.not_true, Bool.and_false, Bool.false_and, Option.isSome_some,
    Bool.true_and, Bool.false_eq_true, if_false]
  unfold renderStep
  rw [generateContent_of_truthyPaths hp]
  simp

/-- Running the whole module against a filesystem already in the desired
state (paths supplied, desired variant present with freshly rendered
content) succeeds and reports `changed=false`. -/
theorem applyModule_present_noop (env : Env) {p : Params} {fs : FS}
    (hA : (p.state == "absent") = false)
    (hp : truthyList p.paths = true)
    (hval : validate p fs = none)
    (hex : readExistingAny p fs = some (p.enabled, renderConfig p (p.paths.getD []))) :
    applyModule env p fs
      = .ok (fs.mkdirs p.config_dir)
        { initialResult with
          enabled_state := p.enabled,
          config_file := p.configPath p.enabled,
          config_content := renderConfig p (p.paths.getD []) } := by
  unfold applyModule
  dsimp only
  have hv : validate p (fs.mkdirs p.config_dir) = none :=
    (validate_of_truthyPaths hp (fs.mkdirs p.config_dir) fs).trans hval
  rw [hv]
  simp only [hA, Bool.false_eq_true, if_false]
  have hex' : readExistingAny p (fs.mkdirs p.config_dir)
      = some (p.enabled, renderConfig p (p.paths.getD [])) := by
    rw [readExistingAny_congr p (FS.mkdirs_files fs _)]; exact hex
  exact applyPresent_noop env hp hex'

/-- After a successful non-check content-write pass with supplied paths, the
filesystem holds exactly the freshly rendered content at the desired variant
(and discovery reports it). -/
theorem renderStep_ok_readback {ts : String} {dm : Nat} {p : Params}
    {existing : Option (Bool × String)} {cur : Bool} {fs fs1 : FS}
    {res res1 : ModResult}
    (hp : truthyList p.paths = true)
    (hexeq : readExistingAny p fs = existing)
    (hcur : ∀ e c, existing = some (e, c) → cur = e)
    (hok : renderStep ⟨false, ts, dm⟩ p existing cur fs res = .ok fs1 res1) :
    readExistingAny p fs1 = some (p.enabled, renderConfig p (p.paths.getD [])) := by
  unfold renderStep at hok
  rw [generateContent_of_truthyPaths hp] at hok
  dsimp only at hok
  split at hok
  · -- needs_update = true
    split at hok
    · -- check mode: impossible, the env literal has check_mode = false
      simp at *
    · split at hok
      · -- removal loop failed
        exact absurd hok (by simp)
      · -- removal loop succeeded
        rename_i fsA res3 heq
        injection hok with hfs hres
        obtain ⟨hA1, hA2, hA3, _⟩ := removeLoop_ok heq
        cases hen : p.enabled with
        | true =>
          rw [hen] at hfs
          unfold readExistingAny FS.readFile
          rw [← hfs, FS.lookup_chmod_self_after_write]
          simp [Option.map]
        | false =>
          rw [hen] at hfs
          unfold readExistingAny FS.readFile
          rw [← hfs, FS.lookup_chmod_ne _ _ (configPath_ne p),
            FS.lookup_writeFile_ne _ _ _ (configPath_ne p), hA1,
            FS.lookup_chmod_self_after_write]
          simp [Option.map]
  · -- needs_update = false: already converged
    rename_i hnu
    cases existing with
    | none => simp at hnu
    | some pr =>
      obtain ⟨e, c⟩ := pr
      simp only [Bool.or_eq_true, Bool.not_eq_true', beq_eq_false_iff_ne,
        not_or, not_not] at hnu
      injection hok with hfs hres
      rw [← hfs, hexeq]
      have hce : cur = e := hcur e c rfl
      have h1 : c = renderConfig p (p.paths.getD []) := by
        rcases hnu with ⟨h1, _⟩
        simpa using h1
      have h2 : p.enabled = e := by
        rcases hnu with ⟨_, h2⟩
        have := of_decide_eq_true (by simpa using h2)
        rw [this, hce]
      rw [h1, h2]

/-- A successful non-check `state=present` run with supplied paths leaves a
filesystem on which discovery already matches the freshly rendered desired
state. -/
theorem applyPresent_ok_readback {ts : String} {dm : Nat} {p : Params}
    {fs fs1 : FS} {res1 : ModResult}
    (hp : truthyList p.paths = true)
    (hok : applyPresent ⟨false, ts, dm⟩ p fs initialResult = .ok fs1 res1) :
    readExistingAny p fs1 = some (p.enabled, renderConfig p (p.paths.getD [])) := by
  unfold applyPresent at hok
  simp only [hp, Bool.not_true, Bool.and_false, Bool.false_and, Bool.false_eq_true,
    if_false] at hok
  cases hex : readExistingAny p fs with
  | none =>
    rw [hex] at hok
    exact renderStep_ok_readback hp hex (fun e c h => by cases h) hok
  | some pr =>
    obtain ⟨e, c⟩ := pr
    rw [hex] at hok
    dsimp only at hok
    exact renderStep_ok_readback hp hex (fun e' c' h => by cases h; rfl) hok

/-- C3 (amended): reconciliation is idempotent provided `paths` is supplied
(non-empty), the run is not in check mode, the two variants are not both
present initially, and the first application succeeds: re-applying the same
options to the resulting filesystem state succeeds and reports
`changed=false`.  (Without these provisos the claim fails: see the
counterexample, where the path-recovery heuristic re-parses a script line of
its own output as a path.) -/
theorem claim3_reconcile_idempotent {ts ts2 : String} {dm dm2 : Nat} {p : Params}
    {fs fs1 : FS} {res1 : ModResult}
    (hp : truthyList p.paths = true)
    (hboth : ¬(fs.pathExists (p.configPath true) = true ∧
               fs.pathExists (p.configPath false) = true))
    (h1 : applyModule ⟨false, ts, dm⟩ p fs = .ok fs1 res1) :
    ∃ fs2 res2, applyModule ⟨false, ts2, dm2⟩ p fs1 = .ok fs2 res2 ∧
      res2.changed = false := by
  unfold applyModule at h1
  dsimp only at h1
  cases hval : validate p (fs.mkdirs p.config_dir) with
  | some m => rw [hval] at h1; exact absurd h1 (by simp)
  | none =>
  rw [hval] at h1
  by_cases hA : (p.state == "absent") = true
  · rw [if_pos hA] at h1
    have hnp : (p.state == "present") = false := by
      have : p.state = "absent" := by simpa using hA
      rw [this]; rfl
    unfold applyAbsent at h1
    rw [FS.pathExists_mkdirs] at h1
    by_cases hpe : fs.pathExists (p.configPath true) = true
    · rw [if_pos hpe] at h1
      obtain ⟨hN, hOther, _⟩ := absentStep_ok rfl h1
      have hpd : fs.pathExists (p.configPath false) = false := by
        cases hfd : fs.pathExists (p.configPath false)
        · rfl
        · exact absurd ⟨hpe, hfd⟩ hboth
      refine ⟨fs1.mkdirs p.config_dir, initialResult, ?_, rfl⟩
      unfold applyModule
      dsimp only
      rw [validate_not_present hnp, if_pos hA]
      apply applyAbsent_noop
      · rw [FS.pathExists_mkdirs, FS.pathExists_false_iff]; exact hN
      · rw [FS.pathExists_mkdirs, FS.pathExists_false_iff,
          hOther _ (configPath_ne' p), FS.lookup_mkdirs]
        exact (FS.pathExists_false_iff fs _).mp hpd
    · have hpe' : fs.pathExists (p.configPath true) = false := by
        cases hfd : fs.pathExists (p.configPath true)
        · rfl
        · exact absurd hfd hpe
      rw [hpe'] at h1
      simp only [Bool.false_eq_true, if_false] at h1
      rw [FS.pathExists_mkdirs] at h1
      by_cases hpd : fs.pathExists (p.configPath false) = true
      · rw [if_pos hpd] at h1
        obtain ⟨hN, hOther, _⟩ := absentStep_ok rfl h1
        refine ⟨fs1.mkdirs p.config_dir, initialResult, ?_, rfl⟩
        unfold applyModule
        dsimp only
        rw [validate_not_present hnp, if_pos hA]
        apply applyAbsent_noop
        · rw [FS.pathExists_mkdirs, FS.pathExists_false_iff,
            hOther _ (configPath_ne p), FS.lookup_mkdirs]
          exact (FS.pathExists_false_iff fs _).mp hpe'
        · rw [FS.pathExists_mkdirs, FS.pathExists_false_iff]; exact hN
      · have hpd' : fs.pathExists (p.configPath false) = false := by
          cases hfd : fs.pathExists (p.configPath false)
          · rfl
          · exact absurd hfd hpd
        rw [hpd'] at h1
        simp only [Bool.false_eq_true, if_false] at h1
        injection h1 with hfs hres
        refine ⟨fs1.mkdirs p.config_dir, initialResult, ?_, rfl⟩
        unfold applyModule
        dsimp only
        rw [validate_not_present hnp, if_pos hA]
        apply applyAbsent_noop
        · rw [FS.pathExists_mkdirs, ← hfs, FS.pathExists_mkdirs]; exact hpe'
        · rw [FS.pathExists_mkdirs, ← hfs, FS.pathExists_mkdirs]; exact hpd'
  · rw [if_neg hA] at h1
    have hA' : (p.state == "absent") = false := by
      cases hv : (p.state == "absent")
      · rfl
      · exact absurd hv hA
    have hex1 : readExistingAny p fs1
        = some (p.enabled, renderConfig p (p.paths.getD [])) :=
      applyPresent_ok_readback hp h1
    have hval1 : validate p fs1 = none :=
      (validate_of_truthyPaths hp fs1 (fs.mkdirs p.config_dir)).trans hval
    refine ⟨_, _, applyModule_present_noop ⟨false, ts2, dm2⟩ hA' hp hval1 hex1, rfl⟩

/-- Outside check mode with `backup=false`, an absent-branch step on an
existing variant is exactly "delete that file, report changed". -/
theorem absentStep_nobackup {env : Env} {p : Params} {path : String} {fs : FS}
    (res : ModResult)
    (hc : env.check_mode = false) (hb : p.backup = false)
    (hex : fs.pathExists path = true) :
    absentStep env p path fs res
      = .ok (fs.removeFile path) { res with changed := true, config_file := path } := by
  unfold absentStep
  simp only [hc, Bool.false_eq_true, if_false]
  rw [backupConfig_nobackup env hb]
  simp only [FS.removeChecked, hex, if_true]

/-! ### Concrete instances used by witnesses and counterexamples -/

/-- The module defaults from the argument spec, for a configuration named
`app` in `/etc/logrotate.d`, with no optional parameter supplied. -/
def baseParams : Params :=
  { name := "app", state := "present", config_dir := "/etc/logrotate.d", paths := none,
    rotation_period := "daily", rotate_count := 7, compress := true, compressoptions := none,
    compression_method := "gzip", delaycompress := false, nodelaycompress := false,
    shred := false, shredcycles := 1, missingok := true, ifempty := false, notifempty := true,
    create := none, copytruncate := false, copy := false, renamecopy := false, size := none,
    minsize := none, maxsize := none, maxage := none, dateext := false, dateyesterday := false,
    dateformat := some "-%Y%m%d", sharedscripts := false, prerotate := none, postrotate := none,
    firstaction := none, lastaction := none, preremove := none, su := none, olddir := none,
    createolddir := false, noolddir := false, extension := none, mail := none, mailfirst := false,
    maillast := true, include_dir := none, tabooext := none, enabled := true, backup := false,
    backup_dir := none, start := 0, syslog := false }

/-! ### C1 -/

/-- C1 (amended): with `state=absent`, outside check mode and with backup not
requested, reconcile deletes the FIRST variant found in the fixed scan order
(enabled form before disabled form) and returns `changed=true`; the other
variant, if also present, is left in place (the loop breaks after the first
hit).  When neither variant exists the run is a no-op with `changed=false`. -/
theorem claim1_absent_deletes_first_found {ts : String} {dm : Nat} {p : Params} {fs : FS}
    (hstate : p.state = "absent") (hb : p.backup = false) :
    (fs.pathExists (p.configPath true) = false →
     fs.pathExists (p.configPath false) = false →
       applyModule ⟨false, ts, dm⟩ p fs = .ok (fs.mkdirs p.config_dir) initialResult) ∧
    (fs.pathExists (p.configPath true) = true →
       applyModule ⟨false, ts, dm⟩ p fs
         = .ok ((fs.mkdirs p.config_dir).removeFile (p.configPath true))
             { initialResult with changed := true, config_file := p.configPath true }) ∧
    (fs.pathExists (p.configPath true) = false →
     fs.pathExists (p.configPath false) = true →
       applyModule ⟨false, ts, dm⟩ p fs
         = .ok ((fs.mkdirs p.config_dir).removeFile (p.configPath false))
             { initialResult with changed := true, config_file := p.configPath false }) := by
  have hnp : (p.state == "present") = false := by rw [hstate]; rfl
  have hA : (p.state == "absent") = true := by rw [hstate]; rfl
  refine ⟨?_, ?_, ?_⟩
  · intro h1 h2
    unfold applyModule
    dsimp only
    rw [validate_not_present hnp, if_pos hA]
    exact applyAbsent_noop initialResult
      (by rw [FS.pathExists_mkdirs]; exact h1)
      (by rw [FS.pathExists_mkdirs]; exact h2)
  · intro h1
    unfold applyModule
    dsimp only
    rw [validate_not_present hnp, if_pos hA]
    unfold applyAbsent
    rw [FS.pathExists_mkdirs, if_pos h1]
    exact absentStep_nobackup initialResult rfl hb
      (by rw [FS.pathExists_mkdirs]; exact h1)
  · intro h1 h2
    unfold applyModule
    dsimp only
    rw [validate_not_present hnp, if_pos hA]
    unfold applyAbsent
    rw [FS.pathExists_mkdirs, h1]
    simp only [Bool.false_eq_true, if_false]
    rw [FS.pathExists_mkdirs, if_pos h2]
    exact absentStep_nobackup initialResult rfl hb
      (by rw [FS.pathExists_mkdirs]; exact h2)

/-- `state=absent` options for the `app` entry. -/
def absentParams : Params := { baseParams with state := "absent" }

/-- A filesystem holding BOTH the enabled and the disabled variant. -/
def bothVariantsFS : FS :=
  ⟨[⟨"/etc/logrotate.d/app", "A", 420⟩, ⟨"/etc/logrotate.d/app.disabled", "B", 420⟩],
   ["/etc/logrotate.d"]⟩

/-- C1 counterexample: with both variants on disk, `state=absent` reports
`changed=true` but deletes only the enabled variant — the disabled variant
survives, contradicting "reconcile deletes both variants". -/
theorem claim1_counterexample :
    (applyModule ⟨false, "t", 420⟩ absentParams bothVariantsFS).resOf.changed = true ∧
    (applyModule ⟨false, "t", 420⟩ absentParams bothVariantsFS).isOK = true ∧
    (applyModule ⟨false, "t", 420⟩ absentParams bothVariantsFS).fsOf.pathExists
      (absentParams.configPath false) = true := by
  refine ⟨rfl, rfl, ?_⟩
  decide

/-- C1 witness: concrete instantiation of the amended claim on a filesystem
holding only the enabled variant. -/
theorem claim1_witness :
    applyModule ⟨false, "t", 420⟩ absentParams
        ⟨[⟨"/etc/logrotate.d/app", "A", 420⟩], ["/etc/logrotate.d"]⟩
      = .ok ((FS.mkdirs ⟨[⟨"/etc/logrotate.d/app", "A", 420⟩], ["/etc/logrotate.d"]⟩
              absentParams.config_dir).removeFile (absentParams.configPath true))
          { initialResult with changed := true, config_file := absentParams.configPath true } :=
  (claim1_absent_deletes_first_found rfl rfl).2.1 (by decide)

/-! ### C3 concrete instances -/

/-- Options for the idempotence counterexample: no `paths` supplied, one
`postrotate` command that looks like a bare path. -/
def idemCexParams : Params :=
  { baseParams with postrotate := some (.str "/usr/bin/reload-x") }

/-- An existing enabled configuration with one path line. -/
def idemCexFS : FS :=
  ⟨[⟨"/etc/logrotate.d/app", "/var/log/app.log\n\x7b\n\x7d", 420⟩], ["/etc/logrotate.d"]⟩

/-- C3 counterexample: both applications succeed but the SECOND application
still reports `changed=true` — the path-recovery heuristic re-parses the
rendered `postrotate` command line as a path, so the rendered content keeps
changing. -/
theorem claim3_counterexample :
    (applyModule ⟨false, "t", 420⟩ idemCexParams idemCexFS).isOK = true ∧
    (applyModule ⟨false, "t", 420⟩ idemCexParams
        ((applyModule ⟨false, "t", 420⟩ idemCexParams idemCexFS).fsOf)).isOK = true ∧
    (applyModule ⟨false, "t", 420⟩ idemCexParams
        ((applyModule ⟨false, "t", 420⟩ idemCexParams idemCexFS).fsOf)).resOf.changed
      = true := ⟨by decide, by decide, by decide⟩

/-- Options with `paths` supplied (the amended idempotence hypothesis). -/
def idemParams : Params :=
  { baseParams with paths := some ["/var/log/app.log"] }

/-- The filesystem left by a first run of `idemParams` on an empty state. -/
def idemFS1 : FS := (applyModule ⟨false, "t", 420⟩ idemParams ⟨[], []⟩).fsOf

def idemRes1 : ModResult := (applyModule ⟨false, "t", 420⟩ idemParams ⟨[], []⟩).resOf

/-- C3 witness: the amended idempotence theorem applied to a concrete first
run (fresh creation), showing the second run reports `changed=false`. -/
theorem claim3_witness :
    ∃ fs2 res2, applyModule ⟨false, "u", 384⟩ idemParams idemFS1 = .ok fs2 res2 ∧
      res2.changed = false :=
  @claim3_reconcile_idempotent "t" "u" 420 384 idemParams ⟨[], []⟩ idemFS1 idemRes1
    rfl (by decide) rfl

/-! ### C2 -/

/-- C2 (amended): with `state=present`, outside check mode, backup not
requested, no `paths` supplied, an entry discovered with enabled state `e`
and content `c`, the requested enabled flag differing (`enabled = !e`), the
rename target free, and validation passing: reconcile performs a toggle-only
update — the run succeeds with `changed=true`, the file is renamed from the
old variant path to the new one with byte-identical content (and unchanged
mode), no other path is touched, and no content is re-rendered (the reported
content is exactly the discovered one). -/
theorem claim2_toggle_only_rename {ts : String} {dm : Nat} {p : Params} {fs : FS}
    {e : Bool} {c : String}
    (hstate : p.state = "present")
    (hb : p.backup = false)
    (hp : truthyList p.paths = false)
    (hex : readExistingAny p fs = some (e, c))
    (hdes : p.enabled = !e)
    (hnew : fs.pathExists (p.configPath p.enabled) = false)
    (hval : validate p fs = none) :
    ∃ fs1, applyModule ⟨false, ts, dm⟩ p fs = .ok fs1
        { initialResult with
          changed := true, config_file := p.configPath p.enabled,
          enabled_state := p.enabled, config_content := c } ∧
      fs1.readFile (p.configPath p.enabled) = some c ∧
      fs1.modeOf (p.configPath p.enabled) = fs.modeOf (p.configPath e) ∧
      fs1.lookup (p.configPath e) = none ∧
      (∀ q, q ≠ p.configPath p.enabled → q ≠ p.configPath e →
        fs1.lookup q = fs.lookup q) := by
  have hnotdes : (!p.enabled) = e := by rw [hdes, Bool.not_not]
  have hread : fs.readFile (p.configPath e) = some c := readExistingAny_readFile hex
  obtain ⟨e0, he0⟩ : ∃ e0, fs.lookup (p.configPath e) = some e0 := by
    unfold FS.readFile at hread
    cases h : fs.lookup (p.configPath e) with
    | none => rw [h] at hread; exact absurd hread (by simp)
    | some e0 => exact ⟨e0, rfl⟩
  have he0c : e0.content = c := by
    unfold FS.readFile at hread
    rw [he0] at hread
    simpa using hread
  have hne : p.configPath e ≠ p.configPath p.enabled := by
    rw [hdes]
    cases e
    · exact configPath_ne' p
    · exact configPath_ne p
  unfold applyModule
  dsimp only
  rw [validate_congr p (FS.mkdirs_files fs _), hval]
  have hA : (p.state == "absent") = false := by rw [hstate]; rfl
  rw [hA]
  simp only [Bool.false_eq_true, if_false]
  unfold applyPresent
  rw [readExistingAny_congr p (FS.mkdirs_files fs _), hex]
  dsimp only
  have hcond1 : (p.enabled == e) = false := by
    rw [hdes]; cases e <;> rfl
  have hold : (fs.mkdirs p.config_dir).pathExists (p.configPath (!p.enabled)) = true := by
    rw [FS.pathExists_mkdirs, hnotdes, FS.pathExists_iff_lookup]
    exact ⟨e0, he0⟩
  have hnew' : (fs.mkdirs p.config_dir).pathExists (p.configPath p.enabled) = false := by
    rw [FS.pathExists_mkdirs]; exact hnew
  rw [hcond1, hold, hnew']
  simp only [hp, Option.isSome_some, Bool.not_false, Bool.and_true, Bool.true_and,
    Bool.not_true, Bool.and_false, if_true]
  unfold toggleStep
  dsimp only
  rw [backupConfig_nobackup _ hb]
  unfold FS.atomicMove
  rw [FS.lookup_mkdirs, hnotdes, he0]
  dsimp only
  simp only [Bool.false_eq_true, if_false]
  have hc2 : (((fs.mkdirs p.config_dir).removeFile (p.configPath e)).writeFile
      (p.configPath p.enabled) e0.content e0.mode).readFile (p.configPath p.enabled)
      = some e0.content := by
    unfold FS.readFile
    rw [FS.lookup_writeFile_self]
    rfl
  refine ⟨((fs.mkdirs p.config_dir).removeFile (p.configPath e)).writeFile
      (p.configPath p.enabled) e0.content e0.mode, ?_, ?_, ?_, ?_, ?_⟩
  · rw [hc2, he0c]
    simp
  · rw [hc2, he0c]
  · unfold FS.modeOf
    rw [FS.lookup_writeFile_self, he0]
    rfl
  · rw [FS.lookup_writeFile_ne _ _ _ hne, FS.lookup_removeFile_self]
  · intro q hq1 hq2
    rw [FS.lookup_writeFile_ne _ _ _ hq1, FS.lookup_removeFile_ne _ hq2,
      FS.lookup_mkdirs]

/-- Options requesting only the flip to disabled (no paths). -/
def toggleParams : Params := { baseParams with enabled := false }

/-- An existing enabled entry. -/
def toggleFS : FS :=
  ⟨[⟨"/etc/logrotate.d/app", "/var/log/app.log\n\x7b\n\x7d", 416⟩], ["/etc/logrotate.d"]⟩

/-- C2 witness: concrete toggle of an enabled entry to disabled — pure
rename, byte-identical content, `changed=true`. -/
theorem claim2_witness :
    ∃ fs1, applyModule ⟨false, "t", 420⟩ toggleParams toggleFS = .ok fs1
        { initialResult with
          changed := true,
          config_file := toggleParams.configPath toggleParams.enabled,
          enabled_state := toggleParams.enabled,
          config_content := "/var/log/app.log\n\x7b\n\x7d" } ∧
      fs1.readFile (toggleParams.configPath toggleParams.enabled)
        = some "/var/log/app.log\n\x7b\n\x7d" ∧
      fs1.modeOf (toggleParams.configPath toggleParams.enabled)
        = toggleFS.modeOf (toggleParams.configPath true) ∧
      fs1.lookup (toggleParams.configPath true) = none ∧
      (∀ q, q ≠ toggleParams.configPath toggleParams.enabled →
        q ≠ toggleParams.configPath true → fs1.lookup q = toggleFS.lookup q) :=
  claim2_toggle_only_rename rfl rfl rfl (by decide) rfl (by decide) (by decide)

/-- A filesystem where BOTH variants exist (enabled content is a minimal
stanza; the disabled variant holds unrelated content). -/
def toggleBothFS : FS :=
  ⟨[⟨"/etc/logrotate.d/app", "/var/log/app.log\n\x7b\n\x7d", 416⟩,
    ⟨"/etc/logrotate.d/app.disabled", "B", 420⟩], ["/etc/logrotate.d"]⟩

/-- C2 counterexample: an entry exists, the enabled flag differs and no paths
are supplied, yet because the disabled variant also exists the module takes
the re-render path instead of the toggle-only rename: it succeeds with
`changed=true`, but the resulting file content differs from the original
(not byte-identical), contradicting the claim as stated. -/
theorem claim2_counterexample :
    (applyModule ⟨false, "t", 420⟩ toggleParams toggleBothFS).isOK = true ∧
    (applyModule ⟨false, "t", 420⟩ toggleParams toggleBothFS).resOf.changed = true ∧
    ¬((applyModule ⟨false, "t", 420⟩ toggleParams toggleBothFS).fsOf.readFile
        (toggleParams.configPath false) = some "/var/log/app.log\n\x7b\n\x7d") := by
  refine ⟨by decide, by decide, by decide⟩

/-! ### C4 -/

/-- Options updating an existing entry with backup requested. -/
def backupUpdateParams : Params :=
  { baseParams with paths := some ["/var/log/app.log"], backup := true }

/-- An existing enabled configuration whose content differs from the freshly
rendered one. -/
def backupUpdateFS : FS :=
  ⟨[⟨"/etc/logrotate.d/app", "old", 420⟩], ["/etc/logrotate.d"]⟩

/-- C4: at the failing input (existing entry, differing content,
`backup=true`, non-check mode) the module does NOT complete the update: the
backup helper `atomic_move`s the original file to
`<backup_dir>/app.backup.<timestamp>` — so the original path no longer
exists — and the subsequent `os.remove` on that path raises
`FileNotFoundError`, aborting the run before anything is written. -/
theorem claim4_backup_then_remove_crashes :
    applyModule ⟨false, "20240101_000000", 384⟩ backupUpdateParams backupUpdateFS
      = .failed
          ⟨[⟨"/etc/logrotate.d/.backup/app.backup.20240101_000000", "old", 420⟩],
           ["/etc/logrotate.d/.backup", "/etc/logrotate.d"]⟩
          "FileNotFoundError: /etc/logrotate.d/app" := by
  decide

/-! ### C5 -/

/-- If validation passes for `state=present`, then every one of the six
checked mutual-exclusion pairs is clear. -/
theorem validate_none_pairs {p : Params} {fs : FS}
    (hs : (p.state == "present") = true) (hv : validate p fs = none) :
    (truthyStr p.size && truthyStr p.maxsize) = false ∧
    (p.copy && p.copytruncate) = false ∧
    (p.copy && p.renamecopy) = false ∧
    (p.ifempty && p.notifempty) = false ∧
    (p.delaycompress && p.nodelaycompress) = false ∧
    (truthyStr p.olddir && p.noolddir) = false := by
  unfold validate at hv
  rw [hs, if_pos rfl] at hv
  by_cases h1 : (!(match readExistingAny p fs with
                   | some (_, c) => !(c == "")
                   | none => false)
      && !truthyList p.paths) = true
  · rw [if_pos h1] at hv; exact absurd hv (by simp)
  rw [if_neg h1] at hv
  by_cases h2 : (truthyStr p.size && truthyStr p.maxsize) = true
  · rw [if_pos h2] at hv; exact absurd hv (by simp)
  rw [if_neg h2] at hv
  by_cases h3 : (p.copy && p.copytruncate) = true
  · rw [if_pos h3] at hv; exact absurd hv (by simp)
  rw [if_neg h3] at hv
  by_cases h4 : (p.copy && p.renamecopy) = true
  · rw [if_pos h4] at hv; exact absurd hv (by simp)
  rw [if_neg h4] at hv
  by_cases h5 : (p.ifempty && p.notifempty) = true
  · rw [if_pos h5] at hv; exact absurd hv (by simp)
  rw [if_neg h5] at hv
  by_cases h6 : (p.delaycompress && p.nodelaycompress) = true
  · rw [if_pos h6] at hv; exact absurd hv (by simp)
  rw [if_neg h6] at hv
  by_cases h7 : (truthyStr p.olddir && p.noolddir) = true
  · rw [if_pos h7] at hv; exact absurd hv (by simp)
  exact ⟨by simpa using h2, by simpa using h3, by simpa using h4,
    by simpa using h5, by simpa using h6, by simpa using h7⟩

/-- C5 (amended): for `state=present`, setting both members of any of the
SIX pairs that the code actually checks — size/maxsize, copy/copytruncate,
copy/renamecopy, ifempty/notifempty, delaycompress/nodelaycompress,
olddir/noolddir — makes reconcile abort with a validation failure before any
file is created, modified or removed (only the configuration directory may
have been created by the constructor).  The pair copytruncate/renamecopy is
NOT among them: see the counterexample. -/
theorem claim5_mutual_exclusion_pairs (env : Env) {p : Params} (fs : FS)
    (hs : p.state = "present")
    (hpair : ((truthyStr p.size && truthyStr p.maxsize)
          || (p.copy && p.copytruncate) || (p.copy && p.renamecopy)
          || (p.ifempty && p.notifempty) || (p.delaycompress && p.nodelaycompress)
          || (truthyStr p.olddir && p.noolddir)) = true) :
    ∃ m, applyModule env p fs = .failed (fs.mkdirs p.config_dir) m ∧
      (fs.mkdirs p.config_dir).files = fs.files := by
  have hs' : (p.state == "present") = true := by rw [hs]; rfl
  cases hv : validate p (fs.mkdirs p.config_dir) with
  | some m =>
    refine ⟨m, ?_, FS.mkdirs_files fs _⟩
    unfold applyModule
    dsimp only
    rw [hv]
  | none =>
    exfalso
    obtain ⟨h1, h2, h3, h4, h5, h6⟩ := validate_none_pairs hs' hv
    rw [h1, h2, h3, h4, h5, h6] at hpair
    simp at hpair

/-- Options with both `ifempty` and `notifempty` set. -/
def ifemptyBothParams : Params :=
  { baseParams with paths := some ["/var/log/app.log"], ifempty := true }

/-- C5 witness: the ifempty/notifempty pair aborts the run with validation
failure and no file change. -/
theorem claim5_witness :
    ∃ m, applyModule ⟨false, "t", 420⟩ ifemptyBothParams ⟨[], []⟩
        = .failed ((⟨[], []⟩ : FS).mkdirs ifemptyBothParams.config_dir) m ∧
      ((⟨[], []⟩ : FS).mkdirs ifemptyBothParams.config_dir).files
        = (⟨[], []⟩ : FS).files :=
  claim5_mutual_exclusion_pairs ⟨false, "t", 420⟩ ⟨[], []⟩ rfl (by decide)

/-- Options with both `copytruncate` and `renamecopy` set. -/
def ctrcParams : Params :=
  { baseParams with
    paths := some ["/var/log/app.log"], copytruncate := true,
    renamecopy := true }

/-- C5 counterexample: `copytruncate=true` together with `renamecopy=true`
(both members of one of the claimed mutually exclusive pairs) passes
validation and the run SUCCEEDS, writing a configuration file — no
ValidationError is raised for this pair. -/
theorem claim5_counterexample :
    validate ctrcParams ⟨[], ["/etc/logrotate.d"]⟩ = none ∧
    (applyModule ⟨false, "t", 420⟩ ctrcParams ⟨[], ["/etc/logrotate.d"]⟩).isOK = true ∧
    (applyModule ⟨false, "t", 420⟩ ctrcParams
      ⟨[], ["/etc/logrotate.d"]⟩).fsOf.pathExists (ctrcParams.configPath true) = true := by
  refine ⟨by decide, by decide, by decide⟩

/-! ### C7 -/

/-- All set size-format fields match `^\d+[kMG]?$` (case-insensitively). -/
def sizeParamsOk (p : Params) : Bool :=
  (!truthyStr p.size || sizeFormatOk (p.size.getD ""))
  && (!truthyStr p.minsize || sizeFormatOk (p.minsize.getD ""))
  && (!truthyStr p.maxsize || sizeFormatOk (p.maxsize.getD ""))

theorem bool_guard_aux (x y : Bool) : ¬((x && !y) = true) ↔ (!x || y) = true := by
  cases x <;> cases y <;> simp

/-- C7: with `state=present` and every check ahead of the size checks
passing (paths supplied, the six pairs clear, a declared compression method,
well-formed `su`, positive `shredcycles`, non-negative `start`), validation
succeeds IFF every supplied `size`/`minsize`/`maxsize` value matches
`^\d+[kMG]?$` case-insensitively; and when some supplied value does not
match, the whole invocation aborts with a validation failure and the files
untouched. -/
theorem claim7_size_format_validation {p : Params} {fs : FS}
    (hs : p.state = "present")
    (hp : truthyList p.paths = true)
    (h2 : (truthyStr p.size && truthyStr p.maxsize) = false)
    (h3 : (p.copy && p.copytruncate) = false)
    (h4 : (p.copy && p.renamecopy) = false)
    (h5 : (p.ifempty && p.notifempty) = false)
    (h6 : (p.delaycompress && p.nodelaycompress) = false)
    (h7 : (truthyStr p.olddir && p.noolddir) = false)
    (h8 : compressionMethods.contains p.compression_method = true)
    (h9 : (truthyStr p.su && !((pySplitWs (p.su.getD "")).length == 2)) = false)
    (h10 : ¬(p.shredcycles < 1))
    (h11 : ¬(p.start < 0)) :
    (validate p fs = none ↔ sizeParamsOk p = true) ∧
    (sizeParamsOk p = false →
      ∀ env, ∃ m, applyModule env p fs = .failed (fs.mkdirs p.config_dir) m ∧
        (fs.mkdirs p.config_dir).files = fs.files) := by
  have hs' : (p.state == "present") = true := by rw [hs]; rfl
  have hchain : validate p fs
      = (if (truthyStr p.size && !sizeFormatOk (p.size.getD "")) = true then
           some "size must be in format number[k|M|G]"
         else if (truthyStr p.minsize && !sizeFormatOk (p.minsize.getD "")) = true then
           some "minsize must be in format number[k|M|G]"
         else if (truthyStr p.maxsize && !sizeFormatOk (p.maxsize.getD "")) = true then
           some "maxsize must be in format number[k|M|G]"
         else none) := by
    unfold validate
    rw [hs', if_pos rfl, hp, h2, h3, h4, h5, h6, h7, h8, h9]
    simp only [Bool.not_true, Bool.and_false, Bool.false_eq_true, if_false,
      Bool.not_false, if_neg h10, if_neg h11]
  have hiff : validate p fs = none ↔ sizeParamsOk p = true := by
    rw [hchain]
    constructor
    · intro hnone
      by_cases c1 : (truthyStr p.size && !sizeFormatOk (p.size.getD "")) = true
      · rw [if_pos c1] at hnone; exact absurd hnone (by simp)
      rw [if_neg c1] at hnone
      by_cases c2 : (truthyStr p.minsize && !sizeFormatOk (p.minsize.getD "")) = true
      · rw [if_pos c2] at hnone; exact absurd hnone (by simp)
      rw [if_neg c2] at hnone
      by_cases c3 : (truthyStr p.maxsize && !sizeFormatOk (p.maxsize.getD "")) = true
      · rw [if_pos c3] at hnone; exact absurd hnone (by simp)
      unfold sizeParamsOk
      rw [(bool_guard_aux _ _).mp c1, (bool_guard_aux _ _).mp c2,
        (bool_guard_aux _ _).mp c3]
      rfl
    · intro hok
      unfold sizeParamsOk at hok
      simp only [Bool.and_eq_true] at hok
      obtain ⟨⟨k1, k2⟩, k3⟩ := hok
      rw [if_neg ((bool_guard_aux _ _).mpr k1), if_neg ((bool_guard_aux _ _).mpr k2),
        if_neg ((bool_guard_aux _ _).mpr k3)]
  refine ⟨hiff, ?_⟩
  intro hbad env
  cases hvm : validate p (fs.mkdirs p.config_dir) with
  | some m =>
    refine ⟨m, ?_, FS.mkdirs_files fs _⟩
    unfold applyModule
    dsimp only
    rw [hvm]
  | none =>
    exfalso
    have : validate p fs = none :=
      (validate_of_truthyPaths hp fs (fs.mkdirs p.config_dir)).trans hvm
    rw [hiff.mp this] at hbad
    exact absurd hbad (by simp)

/-- Options with a malformed `size` value (`100kb`). -/
def badSizeParams : Params :=
  { baseParams with paths := some ["/var/log/app.log"], size := some "100kb" }

/-- Options with a well-formed `size` value (`100M`). -/
def goodSizeParams : Params :=
  { baseParams with paths := some ["/var/log/app.log"], size := some "100M" }

/-- C7 witness: concrete instantiations — `100M` is accepted, and `100kb`
makes the invocation abort with the files untouched. -/
theorem claim7_witness :
    (validate goodSizeParams ⟨[], []⟩ = none ↔ sizeParamsOk goodSizeParams = true) ∧
    sizeParamsOk goodSizeParams = true ∧
    sizeParamsOk badSizeParams = false ∧
    (∃ m, applyModule ⟨false, "t", 420⟩ badSizeParams ⟨[], []⟩
        = .failed ((⟨[], []⟩ : FS).mkdirs badSizeParams.config_dir) m ∧
      ((⟨[], []⟩ : FS).mkdirs badSizeParams.config_dir).files = (⟨[], []⟩ : FS).files) :=
  ⟨(@claim7_size_format_validation goodSizeParams ⟨[], []⟩ rfl rfl (by decide)
      (by decide) (by decide) (by decide) (by decide) (by decide) (by decide)
      (by decide) (by decide) (by decide)).1,
   by decide, by decide,
   (@claim7_size_format_validation badSizeParams ⟨[], []⟩ rfl rfl (by decide)
      (by decide) (by decide) (by decide) (by decide) (by decide) (by decide)
      (by decide) (by decide) (by decide)).2 (by decide) ⟨false, "t", 420⟩⟩

/-! ### C9 -/

/-- C9: with `state=absent` none of the validations run — `validate` returns
no error regardless of the other options — and the whole invocation behaves
identically to one whose options agree only on the fields the absent branch
uses (name, config_dir, backup, backup_dir): invalid combinations such as
ifempty+notifempty or a malformed size value neither fail nor change the
deletion / no-op behaviour. -/
theorem claim9_absent_skips_validation (env : Env) {p q : Params} (fs : FS)
    (hp : p.state = "absent") (hq : q.state = "absent")
    (hname : q.name = p.name) (hdir : q.config_dir = p.config_dir)
    (hb : q.backup = p.backup) (hbd : q.backup_dir = p.backup_dir) :
    validate p fs = none ∧ applyModule env p fs = applyModule env q fs := by
  have hnp : (p.state == "present") = false := by rw [hp]; rfl
  have hnq : (q.state == "present") = false := by rw [hq]; rfl
  refine ⟨validate_not_present hnp fs, ?_⟩
  unfold applyModule
  dsimp only
  rw [validate_not_present hnp, validate_not_present hnq, hdir,
    show (p.state == "absent") = true from by rw [hp]; rfl,
    show (q.state == "absent") = true from by rw [hq]; rfl]
  simp only [if_true]
  unfold applyAbsent absentStep backupConfig backupFileOf backupDirOf Params.configPath
  rw [hname, hdir, hb, hbd]

/-- `state=absent` together with an otherwise invalid option combination
(ifempty+notifempty, delaycompress+nodelaycompress, malformed size). -/
def absentInvalidParams : Params :=
  { baseParams with
    state := "absent", ifempty := true, size := some "totally wrong",
    delaycompress := true, nodelaycompress := true }

/-- C9 witness: the invalid combination neither fails validation nor changes
the deletion behaviour relative to the same deletion with clean options. -/
theorem claim9_witness :
    validate absentInvalidParams bothVariantsFS = none ∧
    applyModule ⟨false, "t", 420⟩ absentInvalidParams bothVariantsFS
      = applyModule ⟨false, "t", 420⟩ absentParams bothVariantsFS :=
  claim9_absent_skips_validation ⟨false, "t", 420⟩ bothVariantsFS rfl rfl rfl rfl rfl rfl

/-! ### C10 -/

/-- The guard of the toggle-only branch (`only_changing_enabled` together
with the rename-feasibility test), as a predicate on the pre-state. -/
def toggleTaken (p : Params) (fs : FS) : Bool :=
  (readExistingAny p fs).isSome && !truthyList p.paths
    && !(p.enabled == (((readExistingAny p fs).map (fun pr => pr.1)).getD true))
    && fs.pathExists (p.configPath (!p.enabled))
    && !(fs.pathExists (p.configPath p.enabled))

/-- A successful non-check content-write pass that reports a change leaves
the written file with mode `0o644`. -/
theorem renderStep_ok_changed_mode {ts : String} {dm : Nat} {p : Params}
    {existing : Option (Bool × String)} {cur : Bool} {fs fs1 : FS}
    {res res1 : ModResult}
    (hchf : res.changed = false)
    (hok : renderStep ⟨false, ts, dm⟩ p existing cur fs res = .ok fs1 res1)
    (hch : res1.changed = true) :
    fs1.modeOf res1.config_file = some 0o644 := by
  unfold renderStep at hok
  cases hg : generateContent p fs with
  | error m => rw [hg] at hok; exact absurd hok (by simp)
  | ok newContent =>
  rw [hg] at hok
  dsimp only at hok
  simp only [Bool.false_eq_true, if_false] at hok
  split at hok
  · split at hok
    · exact absurd hok (by simp)
    · rename_i fsA res3 heq
      injection hok with hfs hres
      obtain ⟨_, _, _, b, hres3⟩ := removeLoop_ok heq
      have hcf : res1.config_file = p.configPath p.enabled := by
        rw [← hres, hres3]
      rw [hcf, ← hfs]
      unfold FS.modeOf
      rw [FS.lookup_chmod_self_after_write]
      rfl
  · injection hok with hfs hres
    have hc2 : res.changed = true := by rw [← hres] at hch; exact hch
    rw [hchf] at hc2
    exact absurd hc2 (by simp)

/-- C10: for `state=present`, outside check mode, whenever the run succeeds
with `changed=true` and the toggle-only branch was not taken (so the change
was a content write — create or update), the file at the reported
`config_file` path is left with mode `0o644`. -/
theorem claim10_written_file_mode {ts : String} {dm : Nat} {p : Params}
    {fs fs1 : FS} {res1 : ModResult}
    (hs : p.state = "present")
    (htog : toggleTaken p fs = false)
    (hok : applyModule ⟨false, ts, dm⟩ p fs = .ok fs1 res1)
    (hch : res1.changed = true) :
    fs1.modeOf res1.config_file = some 0o644 := by
  have hA : (p.state == "absent") = false := by rw [hs]; rfl
  unfold applyModule at hok
  dsimp only at hok
  cases hval : validate p (fs.mkdirs p.config_dir) with
  | some m => rw [hval] at hok; exact absurd hok (by simp)
  | none =>
  rw [hval, hA] at hok
  simp only [Bool.false_eq_true, if_false] at hok
  unfold applyPresent at hok
  dsimp only at hok
  have htogM : toggleTaken p (fs.mkdirs p.config_dir) = false := by
    unfold toggleTaken
    rw [readExistingAny_congr p (FS.mkdirs_files fs _),
      FS.pathExists_mkdirs, FS.pathExists_mkdirs]
    unfold toggleTaken at htog
    exact htog
  unfold toggleTaken at htogM
  cases hex : readExistingAny p (fs.mkdirs p.config_dir) with
  | none =>
    rw [hex] at hok
    simp only [Option.isSome_none, Bool.false_and, Bool.false_eq_true, if_false] at hok
    exact renderStep_ok_changed_mode rfl hok hch
  | some pr =>
    obtain ⟨e, c⟩ := pr
    rw [hex] at hok
    rw [hex] at htogM
    dsimp only at hok
    simp only [Option.map, Option.getD] at htogM
    rw [htogM] at hok
    simp only [Bool.false_eq_true, if_false] at hok
    exact renderStep_ok_changed_mode rfl hok hch

/-- C10 witness: a concrete fresh creation leaves the written file with mode
`0o644` (the umask-derived default mode of `open` is overridden by the
explicit `chmod`). -/
theorem claim10_witness :
    (applyModule ⟨false, "t", 384⟩ idemParams ⟨[], []⟩).fsOf.modeOf
      ((applyModule ⟨false, "t", 384⟩ idemParams ⟨[], []⟩).resOf.config_file)
      = some 0o644 :=
  @claim10_written_file_mode "t" 384 idemParams ⟨[], []⟩
    ((applyModule ⟨false, "t", 384⟩ idemParams ⟨[], []⟩).fsOf)
    ((applyModule ⟨false, "t", 384⟩ idemParams ⟨[], []⟩).resOf)
    rfl (by decide) (by decide) (by decide)

/-! ### C8 -/

/-- The fixed leading texts of every line the renderer can emit apart from
the rotation-cadence keyword line and the path lines. -/
def optionLinePrefixes : List String :=
  ["    size ", "    maxsize ", "    minsize ", "    rotate ", "    start ",
   "    compresscmd /usr/bin/", "    uncompresscmd /usr/bin/", "    compressext .",
   "    compress", "    compressoptions ", "    nocompress", "    delaycompress",
   "    nodelaycompress", "    shred", "    shredcycles ", "    nomissingok",
   "    missingok", "    ifempty", "    notifempty", "    create ", "    copy",
   "    renamecopy", "    copytruncate", "    maxage ", "    dateext",
   "    dateyesterday", "    dateformat ", "    sharedscripts", "    su ",
   "    noolddir", "    olddir ", "    createolddir", "    extension ",
   "    mail ", "    mailfirst", "    maillast", "    include ", "    tabooext ",
   "    syslog", "    prerotate", "    postrotate", "    firstaction",
   "    lastaction", "    preremove", "    endscript", "        ", "\x7b", "\x7d"]

/-- A non-path, non-cadence rendered line: blank, or an extension of one of
the fixed option-line prefixes. -/
def prefixedLine (x : String) : Prop :=
  x = "" ∨ ∃ a ∈ optionLinePrefixes, ∃ v, x = a ++ v

theorem prefixedLine_fixed {x a : String} (ha : a ∈ optionLinePrefixes)
    (hx : x = a) : prefixedLine x :=
  Or.inr ⟨a, ha, "", by rw [hx, String.append_empty]⟩

theorem shape_sizeSeg (p : Params) : ∀ x ∈ sizeSeg p, prefixedLine x := by
  intro x hx
  unfold sizeSeg at hx
  split at hx
  · rw [List.mem_singleton] at hx
    exact Or.inr ⟨"    size ", by decide, _, hx⟩
  split at hx
  · rw [List.mem_singleton] at hx
    exact Or.inr ⟨"    maxsize ", by decide, _, hx⟩
  · exact absurd hx (List.not_mem_nil x)

theorem shape_minsizeSeg (p : Params) : ∀ x ∈ minsizeSeg p, prefixedLine x := by
  intro x hx
  unfold minsizeSeg at hx
  split at hx
  · rw [List.mem_singleton] at hx
    exact Or.inr ⟨"    minsize ", by decide, _, hx⟩
  · exact absurd hx (List.not_mem_nil x)

theorem shape_rotateSeg (p : Params) : ∀ x ∈ rotateSeg p, prefixedLine x := by
  intro x hx
  unfold rotateSeg at hx
  rw [List.mem_singleton] at hx
  exact Or.inr ⟨"    rotate ", by decide, _, hx⟩

theorem shape_startSeg (p : Params) : ∀ x ∈ startSeg p, prefixedLine x := by
  intro x hx
  unfold startSeg at hx
  split at hx
  · rw [List.mem_singleton] at hx
    exact Or.inr ⟨"    start ", by decide, _, hx⟩
  · exact absurd hx (List.not_mem_nil x)

theorem shape_compressSeg (p : Params) : ∀ x ∈ compressSeg p, prefixedLine x := by
  intro x hx
  unfold compressSeg at hx
  split at hx
  · simp only [List.mem_append, List.mem_singleton] at hx
    rcases hx with (h | h) | h
    · split at h
      · simp only [List.mem_append, List.mem_singleton] at h
        rcases h with (h | h) | h
        · exact Or.inr ⟨"    compresscmd /usr/bin/", by decide, _, h⟩
        · split at h
          · rw [List.mem_singleton] at h
            rw [String.append_assoc] at h
            exact Or.inr ⟨"    uncompresscmd /usr/bin/", by decide, _, h⟩
          split at h
          · rw [List.mem_singleton] at h
            rw [String.append_assoc] at h
            exact Or.inr ⟨"    uncompresscmd /usr/bin/", by decide, _, h⟩
          · rw [List.mem_singleton] at h
            rw [String.append_assoc, String.append_assoc] at h
            exact Or.inr ⟨"    uncompresscmd /usr/bin/", by decide, _, h⟩
        · exact Or.inr ⟨"    compressext .", by decide, _, h⟩
      · exact absurd h (List.not_mem_nil x)
    · exact prefixedLine_fixed (by decide) h
    · split at h
      · rw [List.mem_singleton] at h
        exact Or.inr ⟨"    compressoptions ", by decide, _, h⟩
      · exact absurd h (List.not_mem_nil x)
  · rw [List.mem_singleton] at hx
    exact prefixedLine_fixed (by decide) hx

theorem shape_delaySeg (p : Params) : ∀ x ∈ delaySeg p, prefixedLine x := by
  intro x hx
  unfold delaySeg at hx
  split at hx
  · rw [List.mem_singleton] at hx
    exact prefixedLine_fixed (by decide) hx
  split at hx
  · rw [List.mem_singleton] at hx
    exact prefixedLine_fixed (by decide) hx
  · exact absurd hx (List.not_mem_nil x)

theorem shape_shredSeg (p : Params) : ∀ x ∈ shredSeg p, prefixedLine x := by
  intro x hx
  unfold shredSeg at hx
  split at hx
  · simp only [List.mem_append, List.mem_singleton] at hx
    rcases hx with h | h
    · exact prefixedLine_fixed (by decide) h
    · split at h
      · rw [List.mem_singleton] at h
        exact Or.inr ⟨"    shredcycles ", by decide, _, h⟩
      · exact absurd h (List.not_mem_nil x)
  · exact absurd hx (List.not_mem_nil x)

theorem shape_missingokSeg (p : Params) : ∀ x ∈ missingokSeg p, prefixedLine x := by
  intro x hx
  unfold missingokSeg at hx
  split at hx
  · rw [List.mem_singleton] at hx
    exact prefixedLine_fixed (by decide) hx
  · rw [List.mem_singleton] at hx
    exact prefixedLine_fixed (by decide) hx

theorem shape_emptySeg (p : Params) : ∀ x ∈ emptySeg p, prefixedLine x := by
  intro x hx
  unfold emptySeg at hx
  split at hx
  · rw [List.mem_singleton] at hx
    exact prefixedLine_fixed (by decide) hx
  split at hx
  · rw [List.mem_singleton] at hx
    exact prefixedLine_fixed (by decide) hx
  · exact absurd hx (List.not_mem_nil x)

theorem shape_createSeg (p : Params) : ∀ x ∈ createSeg p, prefixedLine x := by
  intro x hx
  unfold createSeg at hx
  split at hx
  · rw [List.mem_singleton] at hx
    exact Or.inr ⟨"    create ", by decide, _, hx⟩
  · exact absurd hx (List.not_mem_nil x)

theorem shape_copySeg (p : Params) : ∀ x ∈ copySeg p, prefixedLine x := by
  intro x hx
  unfold copySeg at hx
  split at hx
  · rw [List.mem_singleton] at hx
    exact prefixedLine_fixed (by decide) hx
  split at hx
  · rw [List.mem_singleton] at hx
    exact prefixedLine_fixed (by decide) hx
  split at hx
  · rw [List.mem_singleton] at hx
    exact prefixedLine_fixed (by decide) hx
  · exact absurd hx (List.not_mem_nil x)

theorem shape_maxageSeg (p : Params) : ∀ x ∈ maxageSeg p, prefixedLine x := by
  intro x hx
  unfold maxageSeg at hx
  split at hx
  · rw [List.mem_singleton] at hx
    exact Or.inr ⟨"    maxage ", by decide, _, hx⟩
  · exact absurd hx (List.not_mem_nil x)

theorem shape_dateextSeg (p : Params) : ∀ x ∈ dateextSeg p, prefixedLine x := by
  intro x hx
  unfold dateextSeg at hx
  split at hx
  · simp only [List.mem_append, List.mem_cons, List.mem_singleton,
      List.not_mem_nil, or_false] at hx
    rcases hx with (h | h) | h
    · exact prefixedLine_fixed (by decide) h
    · split at h
      · rw [List.mem_singleton] at h
        exact prefixedLine_fixed (by decide) h
      · exact absurd h (List.not_mem_nil x)
    · split at h
      · rw [List.mem_singleton] at h
        exact Or.inr ⟨"    dateformat ", by decide, _, h⟩
      · exact absurd h (List.not_mem_nil x)
  · exact absurd hx (List.not_mem_nil x)

theorem shape_sharedSeg (p : Params) : ∀ x ∈ sharedSeg p, prefixedLine x := by
  intro x hx
  unfold sharedSeg at hx
  split at hx
  · rw [List.mem_singleton] at hx
    exact prefixedLine_fixed (by decide) hx
  · exact absurd hx (List.not_mem_nil x)

theorem shape_suSeg (p : Params) : ∀ x ∈ suSeg p, prefixedLine x := by
  intro x hx
  unfold suSeg at hx
  split at hx
  · rw [List.mem_singleton] at hx
    exact Or.inr ⟨"    su ", by decide, _, hx⟩
  · exact absurd hx (List.not_mem_nil x)

theorem shape_olddirSeg (p : Params) : ∀ x ∈ olddirSeg p, prefixedLine x := by
  intro x hx
  unfold olddirSeg at hx
  split at hx
  · rw [List.mem_singleton] at hx
    exact prefixedLine_fixed (by decide) hx
  split at hx
  · simp only [List.mem_append, List.mem_singleton] at hx
    rcases hx with h | h
    · exact Or.inr ⟨"    olddir ", by decide, _, h⟩
    · split at h
      · rw [List.mem_singleton] at h
        exact prefixedLine_fixed (by decide) h
      · exact absurd h (List.not_mem_nil x)
  · exact absurd hx (List.not_mem_nil x)

theorem shape_extensionSeg (p : Params) : ∀ x ∈ extensionSeg p, prefixedLine x := by
  intro x hx
  unfold extensionSeg at hx
  split at hx
  · rw [List.mem_singleton] at hx
    exact Or.inr ⟨"    extension ", by decide, _, hx⟩
  · exact absurd hx (List.not_mem_nil x)

theorem shape_mailSeg (p : Params) : ∀ x ∈ mailSeg p, prefixedLine x := by
  intro x hx
  unfold mailSeg at hx
  split at hx
  · simp only [List.mem_append, List.mem_singleton] at hx
    rcases hx with h | h
    · exact Or.inr ⟨"    mail ", by decide, _, h⟩
    · split at h
      · rw [List.mem_singleton] at h
        exact prefixedLine_fixed (by decide) h
      split at h
      · rw [List.mem_singleton] at h
        exact prefixedLine_fixed (by decide) h
      · exact absurd h (List.not_mem_nil x)
  · exact absurd hx (List.not_mem_nil x)

theorem shape_includeSeg (p : Params) : ∀ x ∈ includeSeg p, prefixedLine x := by
  intro x hx
  unfold includeSeg at hx
  split at hx
  · rw [List.mem_singleton] at hx
    exact Or.inr ⟨"    include ", by decide, _, hx⟩
  · exact absurd hx (List.not_mem_nil x)

theorem shape_tabooSeg (p : Params) : ∀ x ∈ tabooSeg p, prefixedLine x := by
  intro x hx
  unfold tabooSeg at hx
  split at hx
  · split at hx
    · rw [List.mem_singleton] at hx
      exact Or.inr ⟨"    tabooext ", by decide, _, hx⟩
    · exact absurd hx (List.not_mem_nil x)
  · exact absurd hx (List.not_mem_nil x)

theorem shape_syslogSeg (p : Params) : ∀ x ∈ syslogSeg p, prefixedLine x := by
  intro x hx
  unfold syslogSeg at hx
  split at hx
  · rw [List.mem_singleton] at hx
    exact prefixedLine_fixed (by decide) hx
  · exact absurd hx (List.not_mem_nil x)

theorem shape_scriptBlock {nm : String} (v : RawVal)
    (hnm : ("    " ++ nm) ∈ optionLinePrefixes) :
    ∀ x ∈ scriptBlock nm v, prefixedLine x := by
  intro x hx
  unfold scriptBlock at hx
  simp only [List.mem_cons, List.mem_append, List.not_mem_nil, or_false] at hx
  rcases hx with (h | h) | (h | h)
  · exact prefixedLine_fixed hnm h
  · cases v with
    | str s =>
      simp only [List.mem_map] at h
      obtain ⟨c, _, hc⟩ := h
      exact Or.inr ⟨"        ", by decide, c, hc.symm⟩
    | list l =>
      simp only [List.mem_map] at h
      obtain ⟨c, _, hc⟩ := h
      exact Or.inr ⟨"        ", by decide, c, hc.symm⟩
  · exact prefixedLine_fixed (by decide) h
  · exact Or.inl h

theorem shape_scriptsSeg (p : Params) : ∀ x ∈ scriptsSeg p, prefixedLine x := by
  intro x hx
  unfold scriptsSeg at hx
  simp only [List.mem_append] at hx
  rcases hx with ((((h | h) | h) | h) | h)
  all_goals
    split at h
    · exact shape_scriptBlock _ (by decide) _ h
    · exact absurd h (List.not_mem_nil x)

/-- C8: for every option set whose rotation period is one of the four
declared choices and whose paths do not themselves begin with the 4-space
option indentation: when `size` or `maxsize` is set the rendered stanza
contains NO rotation-cadence keyword line but does contain the
corresponding `size <value>` (respectively `maxsize <value>`) line; when
neither is set it contains exactly one cadence line. -/
theorem claim8_cadence_vs_size {p : Params} {paths : List String}
    (hper : p.rotation_period = "daily" ∨ p.rotation_period = "weekly" ∨
            p.rotation_period = "monthly" ∨ p.rotation_period = "yearly")
    (hpaths : ∀ q ∈ paths, pyStartsWith (expandPath q) "    " = false) :
    ((renderLines p paths).count ("    " ++ p.rotation_period)
        = if truthyStr p.size || truthyStr p.maxsize then 0 else 1) ∧
    (truthyStr p.size = true →
      ("    size " ++ p.size.getD "") ∈ renderLines p paths) ∧
    (truthyStr p.size = false → truthyStr p.maxsize = true →
      ("    maxsize " ++ p.maxsize.getD "") ∈ renderLines p paths) := by
  have hpref : ∀ a ∈ optionLinePrefixes,
      a.data.isPrefixOf ("    " ++ p.rotation_period).data = false := by
    rcases hper with h | h | h | h <;> rw [h] <;> decide
  have hne : ∀ x, prefixedLine x → x ≠ "    " ++ p.rotation_period := by
    rintro x (rfl | ⟨a, ha, v, rfl⟩)
    · intro hc
      exact append_ne_of_not_prefix "    " p.rotation_period "" (by decide) hc.symm
    · intro hc
      exact append_ne_of_not_prefix a v _ (hpref a ha) hc
  have hzero : ∀ (l : List String), (∀ x ∈ l, prefixedLine x) →
      l.count ("    " ++ p.rotation_period) = 0 := by
    intro l hl
    rw [List.count_eq_zero]
    intro hmem
    exact hne _ (hl _ hmem) rfl
  have hpath0 : (pathSeg paths).count ("    " ++ p.rotation_period) = 0 := by
    rw [List.count_eq_zero]
    intro hmem
    unfold pathSeg at hmem
    rw [List.mem_map] at hmem
    obtain ⟨q, hq, hqe⟩ := hmem
    have h1 := hpaths q hq
    rw [hqe] at h1
    unfold pyStartsWith at h1
    rw [String.data_append, isPrefixOf_append_self] at h1
    exact absurd h1 (by simp)
  have hbrace : ∀ x ∈ ["\x7b", ""], prefixedLine x := by
    intro x hx
    rcases List.mem_cons.mp hx with h | h
    · exact prefixedLine_fixed (by decide) h
    · rw [List.mem_singleton] at h
      exact Or.inl h
  have hclose : ∀ x ∈ ["\x7d"], prefixedLine x := by
    intro x hx
    rw [List.mem_singleton] at hx
    exact prefixedLine_fixed (by decide) hx
  have hcad : (cadenceSeg p).count ("    " ++ p.rotation_period)
      = if truthyStr p.size || truthyStr p.maxsize then 0 else 1 := by
    unfold cadenceSeg
    cases hsz : truthyStr p.size <;> cases hmx : truthyStr p.maxsize <;>
      simp [List.count_cons]
  refine ⟨?_, ?_, ?_⟩
  · simp only [renderLines, List.count_append]
    rw [hpath0, hzero _ hbrace, hcad, hzero _ (shape_sizeSeg p),
      hzero _ (shape_minsizeSeg p), hzero _ (shape_rotateSeg p),
      hzero _ (shape_startSeg p), hzero _ (shape_compressSeg p),
      hzero _ (shape_delaySeg p), hzero _ (shape_shredSeg p),
      hzero _ (shape_missingokSeg p), hzero _ (shape_emptySeg p),
      hzero _ (shape_createSeg p), hzero _ (shape_copySeg p),
      hzero _ (shape_maxageSeg p), hzero _ (shape_dateextSeg p),
      hzero _ (shape_sharedSeg p), hzero _ (shape_suSeg p),
      hzero _ (shape_olddirSeg p), hzero _ (shape_extensionSeg p),
      hzero _ (shape_mailSeg p), hzero _ (shape_includeSeg p),
      hzero _ (shape_tabooSeg p), hzero _ (shape_syslogSeg p),
      hzero _ (shape_scriptsSeg p), hzero _ hclose]
    simp
  · intro hsz
    have hmem : ("    size " ++ p.size.getD "") ∈ sizeSeg p := by
      unfold sizeSeg
      rw [if_pos hsz]
      exact List.mem_singleton.mpr rfl
    simp only [renderLines, List.mem_append]
    tauto
  · intro hsz hmx
    have hmem : ("    maxsize " ++ p.maxsize.getD "") ∈ sizeSeg p := by
      unfold sizeSeg
      rw [if_neg (by rw [hsz]; exact Bool.false_ne_true), if_pos hmx]
      exact List.mem_singleton.mpr rfl
    simp only [renderLines, List.mem_append]
    tauto

/-- Size-based options on top of a daily period. -/
def sizeDailyParams : Params :=
  { baseParams with paths := some ["/var/log/app.log"], size := some "100M" }

/-- C8 witness: with `size=100M` and `rotation_period=daily` the rendered
stanza has no bare `daily` cadence line and contains `size 100M`; with the
size threshold removed it has exactly one cadence line. -/
theorem claim8_witness :
    ((renderLines sizeDailyParams ["/var/log/app.log"]).count "    daily" = 0 ∧
      "    size 100M" ∈ renderLines sizeDailyParams ["/var/log/app.log"]) ∧
    (renderLines baseParams ["/var/log/app.log"]).count "    daily" = 1 := by
  have h1 := @claim8_cadence_vs_size sizeDailyParams ["/var/log/app.log"]
    (Or.inl rfl) (by decide)
  have h2 := @claim8_cadence_vs_size baseParams ["/var/log/app.log"]
    (Or.inl rfl) (by decide)
  refine ⟨⟨?_, ?_⟩, ?_⟩
  · have := h1.1
    simpa using this
  · have := h1.2.1 (by decide)
    simpa using this
  · have := h2.1
    simpa using this

/-! ### C6 -/

/-- Two outcomes agree when they are both normal with the same result record
or both fatal with the same message (the filesystem components may differ). -/
def outcomesAgree : Outcome → Outcome → Prop
  | .ok _ r1, .ok _ r2 => r1 = r2
  | .failed _ m1, .failed _ m2 => m1 = m2
  | _, _ => False

/-- In check mode the absent branch never touches the filesystem. -/
theorem applyAbsent_check_fs {env : Env} {p : Params} {fs : FS} {res : ModResult}
    (henv : env.check_mode = true) : (applyAbsent env p fs res).fsOf = fs := by
  unfold applyAbsent absentStep
  rw [henv]
  split
  · simp [Outcome.fsOf]
  split
  · simp [Outcome.fsOf]
  · simp [Outcome.fsOf]

/-- In check mode the present branch never touches the filesystem. -/
theorem applyPresent_check_fs {env : Env} {p : Params} {fs : FS} {res : ModResult}
    (henv : env.check_mode = true) : (applyPresent env p fs res).fsOf = fs := by
  unfold applyPresent toggleStep renderStep
  rw [henv]
  dsimp only
  split
  · simp [Outcome.fsOf]
  · cases hg : generateContent p fs with
    | error m => simp [hg, Outcome.fsOf]
    | ok newContent =>
      simp only [hg]
      split
      · simp [Outcome.fsOf]
      · simp [Outcome.fsOf]

/-- With `backup=false` the absent branch computes the same result record in
and out of check mode. -/
theorem applyAbsent_agree {ts : String} {dm : Nat} {p : Params} {fs : FS}
    {res : ModResult} (hb : p.backup = false) :
    outcomesAgree (applyAbsent ⟨true, ts, dm⟩ p fs res)
      (applyAbsent ⟨false, ts, dm⟩ p fs res) := by
  unfold applyAbsent
  by_cases hpe : fs.pathExists (p.configPath true) = true
  · rw [if_pos hpe, if_pos hpe,
      @absentStep_nobackup ⟨false, ts, dm⟩ p (p.configPath true) fs res rfl hb hpe]
    unfold absentStep
    simp [outcomesAgree]
  · rw [if_neg hpe, if_neg hpe]
    by_cases hpd : fs.pathExists (p.configPath false) = true
    · rw [if_pos hpd, if_pos hpd,
        @absentStep_nobackup ⟨false, ts, dm⟩ p (p.configPath false) fs res rfl hb hpd]
      unfold absentStep
      simp [outcomesAgree]
    · rw [if_neg hpd, if_neg hpd]
      simp [outcomesAgree]

/-- With `backup=false` the toggle-only branch computes the same result
record in and out of check mode (the reported content is the discovered one
either way). -/
theorem toggleStep_agree {ts : String} {dm : Nat} {p : Params}
    {oldPath newPath c : String} {fs : FS} {res : ModResult}
    (hb : p.backup = false)
    {e0 : FileEntry} (he0 : fs.lookup oldPath = some e0) (hc : e0.content = c)
    (hnew : fs.pathExists newPath = false) :
    outcomesAgree (toggleStep ⟨true, ts, dm⟩ p oldPath newPath c fs res)
      (toggleStep ⟨false, ts, dm⟩ p oldPath newPath c fs res) := by
  unfold toggleStep
  dsimp only
  rw [backupConfig_nobackup ⟨false, ts, dm⟩ hb]
  unfold FS.atomicMove
  dsimp only
  rw [he0]
  dsimp only
  have hr1 : fs.readFile newPath = none := by
    unfold FS.readFile
    rw [(FS.pathExists_false_iff fs newPath).mp hnew]
    rfl
  have hr2 : ((fs.removeFile oldPath).writeFile newPath e0.content e0.mode).readFile
      newPath = some e0.content := by
    unfold FS.readFile
    rw [FS.lookup_writeFile_self]
    rfl
  rw [hr1, hr2, hc]
  simp [outcomesAgree]

/-- With `backup=false` the content-write path computes the same result
record in and out of check mode. -/
theorem renderStep_agree {ts : String} {dm : Nat} {p : Params}
    {existing : Option (Bool × String)} {cur : Bool} {fs : FS} {res : ModResult}
    (hb : p.backup = false) :
    outcomesAgree (renderStep ⟨true, ts, dm⟩ p existing cur fs res)
      (renderStep ⟨false, ts, dm⟩ p existing cur fs res) := by
  unfold renderStep
  cases hg : generateContent p fs with
  | error m =>
    dsimp only
    simp [outcomesAgree]
  | ok newContent =>
    dsimp only
    by_cases hnu : (match existing with
        | none => true
        | some (_, c0) => !(c0 == newContent) || !(p.enabled == cur)) = true
    · rw [if_pos hnu, if_pos hnu]
      obtain ⟨fs1, hrl⟩ := @removeLoop_nobackup ⟨false, ts, dm⟩ p hb fs
        { res with changed := true, config_content := newContent,
                   config_file := p.configPath p.enabled }
      simp only [Bool.false_eq_true, if_false]
      rw [hrl]
      simp [outcomesAgree]
    · rw [if_neg hnu, if_neg hnu]
      simp [outcomesAgree]

/-- With `backup=false` the present branch computes the same result record
in and out of check mode. -/
theorem applyPresent_agree {ts : String} {dm : Nat} {p : Params} {fs : FS}
    {res : ModResult} (hb : p.backup = false) :
    outcomesAgree (applyPresent ⟨true, ts, dm⟩ p fs res)
      (applyPresent ⟨false, ts, dm⟩ p fs res) := by
  unfold applyPresent
  cases hex : readExistingAny p fs with
  | none =>
    dsimp only
    simp only [Option.isSome_none, Bool.false_and, Bool.false_eq_true, if_false]
    exact renderStep_agree hb
  | some pr =>
    obtain ⟨e, c⟩ := pr
    dsimp only
    by_cases hcond : (((some (e, c)).isSome && !truthyList p.paths && !(p.enabled == e))
        && fs.pathExists (p.configPath (!p.enabled))
        && !(fs.pathExists (p.configPath p.enabled))) = true
    · rw [if_pos hcond, if_pos hcond]
      simp only [Bool.and_eq_true, Bool.not_eq_true'] at hcond
      have hold : fs.pathExists (p.configPath (!p.enabled)) = true := hcond.1.2
      have hnew : fs.pathExists (p.configPath p.enabled) = false := hcond.2
      have hcur : (p.enabled == e) = false := hcond.1.1.2
      have hnot : (!p.enabled) = e := by
        cases hpe2 : p.enabled <;> cases he2 : e <;> simp_all
      obtain ⟨e0, he0, hc0⟩ : ∃ e0, fs.lookup (p.configPath (!p.enabled)) = some e0 ∧
          e0.content = c := by
        have hrf : fs.readFile (p.configPath e) = some c := readExistingAny_readFile hex
        rw [hnot]
        unfold FS.readFile at hrf
        cases hl : fs.lookup (p.configPath e) with
        | none => rw [hl] at hrf; exact absurd hrf (by simp)
        | some e0 =>
          rw [hl] at hrf
          refine ⟨e0, rfl, ?_⟩
          simpa using hrf
      exact toggleStep_agree hb he0 hc0 hnew
    · rw [if_neg hcond, if_neg hcond]
      exact renderStep_agree hb

/-- C6 (amended): check mode performs no file mutation at all — the files
are untouched in every case — and, provided backup is not requested, it
computes exactly the same result record (`changed` flag included) as a
non-check run against the same state.  As stated the original claim fails:
the constructor still CREATES the configuration directory in check mode,
and with backup requested the two modes genuinely diverge (the non-check
run crashes, see C4). -/
theorem claim6_check_mode_behaviour (ts : String) (dm : Nat) (p : Params) (fs : FS) :
    (applyModule ⟨true, ts, dm⟩ p fs).fsOf.files = fs.files ∧
    (p.backup = false →
      outcomesAgree (applyModule ⟨true, ts, dm⟩ p fs)
        (applyModule ⟨false, ts, dm⟩ p fs)) := by
  constructor
  · unfold applyModule
    dsimp only
    cases hv : validate p (fs.mkdirs p.config_dir) with
    | some m => exact FS.mkdirs_files fs _
    | none =>
      dsimp only
      split
      · rw [@applyAbsent_check_fs ⟨true, ts, dm⟩ p (fs.mkdirs p.config_dir)
          initialResult rfl]
        exact FS.mkdirs_files fs _
      · rw [@applyPresent_check_fs ⟨true, ts, dm⟩ p (fs.mkdirs p.config_dir)
          initialResult rfl]
        exact FS.mkdirs_files fs _
  · intro hb
    unfold applyModule
    dsimp only
    cases hv : validate p (fs.mkdirs p.config_dir) with
    | some m => simp [outcomesAgree]
    | none =>
      dsimp only
      split
      · exact applyAbsent_agree hb
      · exact applyPresent_agree hb

/-- C6 witness: on a concrete fresh creation the check-mode run returns
exactly the result record (with `changed=true`) that the real run returns. -/
theorem claim6_witness :
    (applyModule ⟨true, "t", 420⟩ idemParams ⟨[], []⟩).fsOf.files
      = (⟨[], []⟩ : FS).files ∧
    outcomesAgree (applyModule ⟨true, "t", 420⟩ idemParams ⟨[], []⟩)
      (applyModule ⟨false, "t", 420⟩ idemParams ⟨[], []⟩) :=
  ⟨(claim6_check_mode_behaviour "t" 420 idemParams ⟨[], []⟩).1,
   (claim6_check_mode_behaviour "t" 420 idemParams ⟨[], []⟩).2 rfl⟩

/-- C6 counterexample: a check-mode run is NOT free of mutating steps — when
the configuration directory is missing, the constructor creates it even in
check mode, so the resulting filesystem state differs from the initial one. -/
theorem claim6_counterexample :
    ¬((applyModule ⟨true, "t", 420⟩ idemParams ⟨[], []⟩).fsOf
        = (⟨[], []⟩ : FS)) := by
  decide

end Logrotate
